import Mathlib

/-!
Verification of the field-extraction engine of the Chittorgarh IPO/NCD
scraper.  The Python sources under `app/utils`, `app/scraper` and `app/api`
are shallowly embedded: pure text-processing functions become Lean
functions over `List Char`, the regular expressions used by the code are
implemented as explicit backtracking scanners with Python `re` semantics,
numeric values are represented by `ℚ` (every value handled by the code is
a finite decimal), exceptions become `Except`, and `None` becomes
`Option`.
-/

namespace Scrap

abbrev Chars := List Char

/-- Python `\s` for the ASCII range: space, tab, newline, carriage return,
vertical tab, form feed. -/
def pySpace (c : Char) : Bool :=
  c = ' ' || c = '\t' || c = '\n' || c = '\r' || c = '\x0b' || c = '\x0c'

/-- Lowercase a character list (Python `str.lower` on ASCII data). -/
def lowerL (cs : Chars) : Chars := cs.map Char.toLower

/-- Uppercase a character list (Python `str.upper` on ASCII data). -/
def upperL (cs : Chars) : Chars := cs.map Char.toUpper

/-- Python `str.lower` (the `String.toLower` of the standard library does
not reduce in the kernel, so the list-level map is used). -/
def lowerS (s : String) : String := ⟨lowerL s.data⟩

/-- Python `str.upper`. -/
def upperS (s : String) : String := ⟨upperL s.data⟩

/-- Does `needle` occur at the head of `hay`? -/
def startsL : Chars → Chars → Bool
  | [], _ => true
  | _ :: _, [] => false
  | a :: as, b :: bs => a = b && startsL as bs

/-- Does `needle` occur contiguously anywhere in `hay`?  (Python `in`.) -/
def containsL (needle : Chars) : Chars → Bool
  | [] => startsL needle []
  | c :: rest => startsL needle (c :: rest) || containsL needle rest

/-- Case-insensitive containment. -/
def containsCI (needle : Chars) (hay : Chars) : Bool :=
  containsL (lowerL needle) (lowerL hay)

/-- Python `str.strip()`: drop leading and trailing whitespace. -/
def pyStrip (cs : Chars) : Chars :=
  ((cs.dropWhile pySpace).reverse.dropWhile pySpace).reverse

/-- Collapse every whitespace run to a single space
(the `re.sub` part of `clean_text` in `app/utils/helpers.py`). -/
def collapseWs : Chars → Chars
  | [] => []
  | [c] => if pySpace c then [' '] else [c]
  | c :: d :: rest =>
    if pySpace c then
      if pySpace d then collapseWs (d :: rest)
      else ' ' :: collapseWs (d :: rest)
    else c :: collapseWs (d :: rest)

/-- `clean_text` on character lists: collapse whitespace runs, then strip. -/
def cleanL (cs : Chars) : Chars := pyStrip (collapseWs cs)

/-- `clean_text` from `app/utils/helpers.py`
(`re.sub` of whitespace runs to one space, then `strip`). -/
def clean_text (s : String) : String := ⟨cleanL s.data⟩

/-- Numeric value of a digit character. -/
def digitVal (c : Char) : Nat := c.toNat - 48

/-- Natural number denoted by a digit string. -/
def natOfDigits (ds : Chars) : Nat := ds.foldl (fun n c => 10 * n + digitVal c) 0

/-- The rational `n / 10 ^ k`, built directly in lowest terms so that the
kernel can evaluate it (the `Rat` arithmetic operations do not reduce). -/
def decQ (n k : Nat) : ℚ :=
  let d := 10 ^ k
  let g := Nat.gcd n d
  ⟨(n / g : Nat), d / g,
    by
      have hd : 0 < d := Nat.pos_pow_of_pos k (by norm_num)
      have hg : 0 < g := Nat.gcd_pos_of_pos_right n hd
      have hdvd : g ∣ d := Nat.gcd_dvd_right n d
      exact Nat.ne_of_gt (Nat.div_pos (Nat.le_of_dvd hd hdvd) hg),
    by
      have hd : 0 < d := Nat.pos_pow_of_pos k (by norm_num)
      have hg : 0 < Nat.gcd n d := Nat.gcd_pos_of_pos_right n hd
      simpa using Nat.coprime_div_gcd_div_gcd hg⟩

/-- Rational denoted by an integer digit part and a fractional digit part
(the value of a matched numeric group such as `12.5`). -/
def ratOfParts (ip fp : Chars) : ℚ :=
  decQ (natOfDigits ip * 10 ^ fp.length + natOfDigits fp) fp.length

/-- Drop commas (Python `value.replace(",", "")`). -/
def removeCommas (cs : Chars) : Chars := cs.filter (fun c => c ≠ ',')

/-- Read the number at the head of `cs` (which must start with a digit),
following the regex `\d+(\.\d+)?`: a maximal digit run, then optionally a
dot followed by a nonempty maximal digit run.  Returns the value and the
unconsumed rest. -/
def readNumber (cs : Chars) : ℚ × Chars :=
  let p := cs.span Char.isDigit
  match p.2 with
  | dot :: r2 =>
    if dot = '.' then
      let q := r2.span Char.isDigit
      if q.1 = [] then (ratOfParts p.1 [], p.2) else (ratOfParts p.1 q.1, q.2)
    else (ratOfParts p.1 [], p.2)
  | [] => (ratOfParts p.1 [], [])

/-- Leftmost match of `\d+(\.\d+)?` (the `re.search` in `parse_float`). -/
def scanFirstNumber : Chars → Option ℚ
  | [] => none
  | c :: rest =>
    if c.isDigit then some (readNumber (c :: rest)).1 else scanFirstNumber rest

/-- `parse_float` from `app/utils/normalizers.py`: `None` on falsy input,
otherwise drop commas and return the first `\d+(\.\d+)?` match as a number
(`None` when there is no digit). -/
def parse_float (s : String) : Option ℚ :=
  if s.data = [] then none else scanFirstNumber (removeCommas s.data)

/-- Leftmost match of `\d+` as a natural number. -/
def scanFirstDigits : Chars → Option Nat
  | [] => none
  | c :: rest =>
    if c.isDigit then some (natOfDigits ((c :: rest).takeWhile Char.isDigit))
    else scanFirstDigits rest

/-- `parse_int` from `app/utils/normalizers.py`. -/
def parse_int (s : String) : Option Nat :=
  if s.data = [] then none else scanFirstDigits (removeCommas s.data)

/-- Character class of the regex `[\d,.]+` used by `extract_number`. -/
def floatRunClass (c : Char) : Bool := c.isDigit || c = ',' || c = '.'

/-- Leftmost maximal run of `[\d,.]` characters. -/
def findFloatRun : Chars → Option Chars
  | [] => none
  | c :: rest =>
    if floatRunClass c then some ((c :: rest).takeWhile floatRunClass)
    else findFloatRun rest

/-- Python `float()` applied to a run of digits, dots and commas:
succeeds exactly when the run has no comma, at most one dot and at least
one digit. -/
def pyFloatOfRun (run : Chars) : Option ℚ :=
  if run.any (fun c => c = ',') then none
  else if 2 ≤ run.countP (fun c => c = '.') then none
  else if !(run.any Char.isDigit) then none
  else
    let p := run.span Char.isDigit
    match p.2 with
    | [] => some (ratOfParts p.1 [])
    | _ :: d2 => some (ratOfParts p.1 d2)

/-- `extract_number` from `app/utils/helpers.py`.  The Python body is
`float(match.group())` on the leftmost `[\d,.]+` run of the comma-stripped
text; `float` raises `ValueError` when the run is not a valid float
literal (for example a run with two dots), which we model as
`Except.error`. -/
def extract_number (s : String) : Except Unit (Option ℚ) :=
  if s.data = [] then Except.ok none
  else
    match findFloatRun (removeCommas s.data) with
    | none => Except.ok none
    | some run =>
      match pyFloatOfRun run with
      | some q => Except.ok (some q)
      | none => Except.error ()

/-! ## Dates

`parse_date` in `app/utils/normalizers.py` is `datetime.strptime` with the
fixed format `"%a, %b %d, %Y"` after stripping one trailing `T` and
whitespace.  CPython compiles that format to the case-insensitive regex
`(weekday-abbr),\s+(month-abbr)\s+(3[01]|[12]\d|0[1-9]|[1-9]),\s+(\d{4})`
which must consume the whole string, and then validates the day against
the month and year. -/

/-- A calendar date as produced by `datetime.date`. -/
structure PDate where
  year : Nat
  month : Nat
  day : Nat
deriving DecidableEq, Repr

def isLeap (y : Nat) : Bool := (y % 4 = 0 && y % 100 ≠ 0) || y % 400 = 0

def daysInMonth (y m : Nat) : Nat :=
  if m = 2 then (if isLeap y then 29 else 28)
  else if m = 4 || m = 6 || m = 9 || m = 11 then 30
  else 31

/-- `datetime(year, month, day)` construction: validates the ranges
(`MINYEAR = 1`; the month is always in range when produced by a name
match). -/
def mkValidDate (y m d : Nat) : Option PDate :=
  if 1 ≤ y && 1 ≤ d && d ≤ daysInMonth y m then some ⟨y, m, d⟩ else none

def weekdayAbbrs : List Chars :=
  [r"mon", r"tue", r"wed", r"thu", r"fri", r"sat", r"sun"].map String.data

def monthAbbrs : List Chars :=
  [r"jan", r"feb", r"mar", r"apr", r"may", r"jun", r"jul", r"aug", r"sep",
   r"oct", r"nov", r"dec"].map String.data

def weekdayFulls : List Chars :=
  [r"monday", r"tuesday", r"wednesday", r"thursday", r"friday", r"saturday",
   r"sunday"].map String.data

def monthFulls : List Chars :=
  [r"january", r"february", r"march", r"april", r"may", r"june", r"july",
   r"august", r"september", r"october", r"november", r"december"].map String.data

/-- Match one name of `names` (all lowercase) case-insensitively at the
head of `cs`; return its 1-based index and the rest.  No name in the
lists used here is a prefix of another, so trying them in order matches
CPython's longest-first alternation. -/
def matchNameAux (names : List Chars) (i : Nat) (cs : Chars) : Option (Nat × Chars) :=
  match names with
  | [] => none
  | n :: rest =>
    if lowerL (cs.take n.length) = n then some (i + 1, cs.drop n.length)
    else matchNameAux rest (i + 1) cs

/-- Regex `\s+`: requires at least one whitespace character, consumes the
maximal run (the following token never matches whitespace, so greediness
is deterministic here). -/
def matchWs1 (cs : Chars) : Option Chars :=
  if cs.takeWhile pySpace = [] then none else some (cs.dropWhile pySpace)

/-- The tail `",\s+(\d{4})$"` of the strptime regex: a comma, whitespace,
exactly four digits, end of string.  Returns the year. -/
def matchTail (cs : Chars) : Option Nat :=
  match cs with
  | c :: rest =>
    if c = ',' then
      match matchWs1 rest with
      | some r2 =>
        if r2.length = 4 && r2.all Char.isDigit then some (natOfDigits r2) else none
      | none => none
    else none
  | [] => none

/-- The two-digit alternatives `3[01]|[12]\d|0[1-9]` of `%d`. -/
def twoDigitDayOk (a b : Char) : Bool :=
  (a = '3' && (b = '0' || b = '1')) ||
  ((a = '1' || a = '2') && b.isDigit) ||
  (a = '0' && b.isDigit && b ≠ '0')

/-- The one-digit alternative `[1-9]` of `%d`. -/
def oneDigitDayOk (a : Char) : Bool := a.isDigit && a ≠ '0'

/-- `%d` followed by the anchored tail, with the regex backtracking:
two-digit alternatives are tried before the one-digit one.  Returns
`(day, year)`. -/
def matchDayTail (cs : Chars) : Option (Nat × Nat) :=
  match cs with
  | a :: b :: r =>
    if a.isDigit && b.isDigit && twoDigitDayOk a b then
      match matchTail r with
      | some y => some (natOfDigits [a, b], y)
      | none =>
        if oneDigitDayOk a then (matchTail (b :: r)).map (fun y => (digitVal a, y))
        else none
    else if oneDigitDayOk a then (matchTail (b :: r)).map (fun y => (digitVal a, y))
    else none
  | [a] => if oneDigitDayOk a then (matchTail []).map (fun y => (digitVal a, y)) else none
  | [] => none

/-- A literal comma. -/
def expectComma (cs : Chars) : Option Chars :=
  match cs with
  | c :: rest => if c = ',' then some rest else none
  | [] => none

/-- The full strptime regex for a format `"%wd, %mo %d, %Y"` with the
given weekday and month name lists.  Returns `(year, month, day)`. -/
def matchDateNames (wds mos : List Chars) (cs : Chars) : Option (Nat × Nat × Nat) :=
  match matchNameAux wds 0 cs with
  | none => none
  | some (_, r1) =>
    match expectComma r1 with
    | none => none
    | some r2 =>
      match matchWs1 r2 with
      | none => none
      | some r3 =>
        match matchNameAux mos 0 r3 with
        | none => none
        | some (m, r4) =>
          match matchWs1 r4 with
          | none => none
          | some r5 =>
            match matchDayTail r5 with
            | none => none
            | some (d, y) => some (y, m, d)

/-- Strip a single trailing `T`
(`value[:-1] if value.endswith("T") else value`). -/
def stripTmark (cs : Chars) : Chars :=
  match cs.getLast? with
  | some c => if c = 'T' then cs.dropLast else cs
  | none => cs

/-- `parse_date` from `app/utils/normalizers.py`: falsy input gives
`None`; otherwise strip one trailing `T`, strip whitespace, and run
`datetime.strptime(value, "%a, %b %d, %Y")`, returning `None` on
`ValueError`. -/
def parse_date (s : String) : Option PDate :=
  if s.data = [] then none
  else
    match matchDateNames weekdayAbbrs monthAbbrs (pyStrip (stripTmark s.data)) with
    | some (y, m, d) => mkValidDate y m d
    | none => none

/-- `datetime.strptime(v.strip(), "%A, %B %d, %Y")` (the full-name
fallback inside `_extract_date` in `app/scraper/chittorgarh.py`). -/
def parseDateFullNames (s : String) : Option PDate :=
  match matchDateNames weekdayFulls monthFulls (pyStrip s.data) with
  | some (y, m, d) => mkValidDate y m d
  | none => none

/-! ## The canonical-date `findall`

Both date extractors start with
`re.findall(r"([A-Za-z]{3},\s+[A-Za-z]{3}\s+\d{1,2},\s+\d{4})", v)`:
non-overlapping leftmost matches, any three letters for the two name
slots, and `\d{1,2}` greedy (two digits tried before one). -/

/-- The `",\s+\d{4}"` tail of the findall pattern (not end-anchored).
Returns the consumed characters and the rest. -/
def matchLooseTail (cs : Chars) : Option (Chars × Chars) :=
  match cs with
  | c :: rest =>
    if c = ',' then
      let p := rest.span pySpace
      if p.1 = [] then none
      else if p.2.length < 4 then none
      else if (p.2.take 4).all Char.isDigit then
        some (c :: (p.1 ++ p.2.take 4), p.2.drop 4)
      else none
    else none
  | [] => none

/-- Attempt the findall pattern at the head of `cs`; on success return
the matched characters and the rest of the input. -/
def matchDateAt (cs : Chars) : Option (Chars × Chars) :=
  if ¬ ((cs.take 3).length = 3 && (cs.take 3).all Char.isAlpha) then none
  else
    let wd := cs.take 3
    match cs.drop 3 with
    | c :: r1 =>
      if c = ',' then
        let p := r1.span pySpace
        if p.1 = [] then none
        else if ¬ ((p.2.take 3).length = 3 && (p.2.take 3).all Char.isAlpha) then none
        else
          let mo := p.2.take 3
          let q := (p.2.drop 3).span pySpace
          if q.1 = [] then none
          else
            let head := wd ++ c :: (p.1 ++ mo ++ q.1)
            match q.2 with
            | a :: b :: r6 =>
              if a.isDigit && b.isDigit then
                match matchLooseTail r6 with
                | some (t, rest) => some (head ++ a :: b :: t, rest)
                | none =>
                  if a.isDigit then
                    (matchLooseTail (b :: r6)).map (fun pr => (head ++ a :: pr.1, pr.2))
                  else none
              else if a.isDigit then
                (matchLooseTail (b :: r6)).map (fun pr => (head ++ a :: pr.1, pr.2))
              else none
            | [a] =>
              if a.isDigit then (matchLooseTail []).map (fun pr => (head ++ a :: pr.1, pr.2))
              else none
            | [] => none
      else none
    | [] => none

def findallAux (fuel : Nat) (cs : Chars) : List Chars :=
  match fuel with
  | 0 => []
  | fuel + 1 =>
    match cs with
    | [] => []
    | c :: rest =>
      match matchDateAt (c :: rest) with
      | some (m, rest2) => m :: findallAux fuel rest2
      | none => findallAux fuel rest

/-- All non-overlapping matches of the canonical date pattern. -/
def findallCanonical (cs : Chars) : List Chars := findallAux cs.length cs

/-- The loop `for d in re.findall(..): p = parse_date(d); if p: return p`
of `_parse` inside `_extract_date` (`app/scraper/chittorgarh.py`). -/
def firstParsedDate : List Chars → Option PDate
  | [] => none
  | d :: rest =>
    match parse_date ⟨d⟩ with
    | some p => some p
    | none => firstParsedDate rest

/-- `_parse` inside `_extract_date` in `app/scraper/chittorgarh.py`
applied to one matched label value: first parseable embedded canonical
date, then `parse_date` of the whole value, then the full-name format.
Note that it does not depend on the labels: the same first embedded date
is returned for open-date and close-date fields. -/
def ipoParseDateValue (v : String) : Option PDate :=
  if v.data = [] then none
  else
    match firstParsedDate (findallCanonical v.data) with
    | some p => some p
    | none =>
      match parse_date v with
      | some p => some p
      | none => parseDateFullNames v

/-- `_parse_date_val` inside `_extract_date_improved` in
`app/scraper/ncd.py`: when embedded canonical dates exist, parse the last
one if `"Close"` occurs in `str(labels)`, else the first one. -/
def ncdParseDateVal (hasClose : Bool) (v : String) : Option PDate :=
  if v.data = [] then none
  else
    match findallCanonical v.data with
    | [] => parse_date v
    | d :: rest => parse_date ⟨if hasClose then (d :: rest).getLastD d else d⟩

def closeLit : String := "Close"

/-- `"Close" in str(labels)` (the label list is rendered with `str`; for
the label lists used by the scrapers this is containment in one of the
labels). -/
def labelsHaveClose (labels : List String) : Bool :=
  labels.any (fun l => containsL closeLit.data l.data)

/-- The label list of the NCD open-date extraction call. -/
def ncdOpenLabels : List String := [r"Open Date", r"Issue Open", r"NCD Open", r"Open"]

/-- The label list of the NCD close-date extraction call. -/
def ncdCloseLabels : List String :=
  [r"Close Date", r"Issue Close", r"NCD Close", r"Close"]

/-! ## Price band (`_parse_price_band`, `app/scraper/chittorgarh.py`) -/

/-- All matches of `[₹₹]?\s*(\d+(?:\.\d+)?)` in order.  The optional
currency sign and whitespace prefix never changes the captured numbers,
so the scan reduces to reading every maximal numeric substring. -/
def scanNumbersAux (fuel : Nat) (cs : Chars) : List ℚ :=
  match fuel with
  | 0 => []
  | fuel + 1 =>
    match cs with
    | [] => []
    | c :: rest =>
      if c.isDigit then
        let p := readNumber (c :: rest)
        p.1 :: scanNumbersAux fuel p.2
      else scanNumbersAux fuel rest

def scanNumbers (cs : Chars) : List ℚ := scanNumbersAux cs.length cs

/-- `_parse_price_band`: falsy input or no number gives `(None, None)`;
otherwise `(min(nums), max(nums))` over all numbers found. -/
def _parse_price_band (s : String) : Option ℚ × Option ℚ :=
  if s.data = [] then (none, none)
  else
    match scanNumbers s.data with
    | [] => (none, none)
    | q :: qs => (some (qs.foldl min q), some (qs.foldl max q))

/-! ## The combined day-range fallback of `_extract_date`
(`app/scraper/chittorgarh.py`, "IPO Date" branch). -/

/-- Regex `\d{1,2}` with its greedy backtracking, as a combinator: `k` is
the continuation matching the rest of the pattern. -/
def tryD12 {α : Type} (cs : Chars) (k : Chars → Option α) : Option (Chars × α) :=
  match cs with
  | a :: b :: r =>
    if a.isDigit && b.isDigit then
      match k r with
      | some x => some ([a, b], x)
      | none => (k (b :: r)).map (fun x => ([a], x))
    else if a.isDigit then (k (b :: r)).map (fun x => ([a], x))
    else none
  | [a] => if a.isDigit then (k []).map (fun x => ([a], x)) else none
  | [] => none

/-- Case-sensitive literal match. -/
def expectLit (lit : Chars) (cs : Chars) : Option Chars :=
  if startsL lit cs then some (cs.drop lit.length) else none

def toLit : String := "to"

/-- After the second day of pattern `(\d{1,2})\s+to\s+(\d{1,2})\s+([A-Za-z]{3}),\s+(\d{4})`:
match `\s+([A-Za-z]{3}),\s+(\d{4})`, returning month and year groups. -/
def dayRangeTail (cs : Chars) : Option (Chars × Chars) := do
  let r1 ← matchWs1 cs
  if (r1.take 3).length = 3 && (r1.take 3).all Char.isAlpha then
    match r1.drop 3 with
    | c :: r2 =>
      if c = ',' then do
        let r3 ← matchWs1 r2
        if r3.length ≥ 4 && (r3.take 4).all Char.isDigit then
          some (r1.take 3, r3.take 4)
        else none
      else none
    | [] => none
  else none

/-- Attempt `(\d{1,2})\s+to\s+(\d{1,2})\s+([A-Za-z]{3}),\s+(\d{4})` at
the head of `cs`; groups `(day1, day2, month, year)`. -/
def dayRangeAt (cs : Chars) : Option (Chars × Chars × Chars × Chars) :=
  match tryD12 cs (fun r => do
      let r1 ← matchWs1 r
      let r2 ← expectLit toLit.data r1
      let r3 ← matchWs1 r2
      tryD12 r3 dayRangeTail) with
  | some (d1, d2, mon, yr) => some (d1, d2, mon, yr)
  | none => none

def searchAux {α : Type} (att : Chars → Option α) (fuel : Nat) (cs : Chars) : Option α :=
  match fuel with
  | 0 => none
  | fuel + 1 =>
    match cs with
    | [] => none
    | c :: rest =>
      match att (c :: rest) with
      | some x => some x
      | none => searchAux att fuel rest

/-- `re.search` of the numeric day-range pattern. -/
def searchDayRange (cs : Chars) : Option (Chars × Chars × Chars × Chars) :=
  searchAux dayRangeAt cs.length cs

/-- Match `([A-Za-z]{3})\s+(\d{1,2}),\s+(\d{4})` at the head of `cs`;
returns the three groups and the rest. -/
def monDayYearAt (cs : Chars) : Option ((Chars × Chars × Chars) × Chars) :=
  if (cs.take 3).length = 3 && (cs.take 3).all Char.isAlpha then
    (tryD12Wrap cs)
  else none
where
  tryD12Wrap (cs : Chars) : Option ((Chars × Chars × Chars) × Chars) := do
    let r1 ← matchWs1 (cs.drop 3)
    let (dd, (yr, rest)) ← tryD12 r1 (fun r =>
      match r with
      | c :: r2 =>
        if c = ',' then do
          let r3 ← matchWs1 r2
          if r3.length ≥ 4 && (r3.take 4).all Char.isDigit then
            some (r3.take 4, r3.drop 4)
          else none
        else none
      | [] => none)
    pure ((cs.take 3, dd, yr), rest)

/-- Attempt the month-name range pattern
`([A-Za-z]{3})\s+(\d{1,2}),\s+(\d{4})\s+to\s+([A-Za-z]{3})\s+(\d{1,2}),\s+(\d{4})`. -/
def monthRangeAt (cs : Chars) :
    Option ((Chars × Chars × Chars) × (Chars × Chars × Chars)) := do
  let (g1, rest1) ← monDayYearAt cs
  let r1 ← matchWs1 rest1
  let r2 ← expectLit toLit.data r1
  let r3 ← matchWs1 r2
  let (g2, _) ← monDayYearAt r3
  pure (g1, g2)

def searchMonthRange (cs : Chars) :
    Option ((Chars × Chars × Chars) × (Chars × Chars × Chars)) :=
  searchAux monthRangeAt cs.length cs

/-- Pattern-2 branch of the "IPO Date" fallback: build
`f"{month} {day}, {year}"` from the open or close half and feed it to
`parse_date`. -/
def ipoDateRangeP2 (hasClose : Bool) (v : String) : Option PDate :=
  match searchMonthRange v.data with
  | some (g1, g2) =>
    let g := if hasClose then g2 else g1
    parse_date ⟨g.1 ++ ' ' :: (g.2.1 ++ ',' :: ' ' :: g.2.2)⟩
  | none => none

/-- The "IPO Date" combined-range fallback of `_extract_date` in
`app/scraper/chittorgarh.py` (lines 853-879), given the text of the
"IPO Date" cell.  Pattern 1 builds `f"{day} {month} {year}"` and
pattern 2 builds `f"{month} {day}, {year}"`; both strings are passed to
`parse_date`. -/
def ipoDateRangeFallback (hasClose : Bool) (v : String) : Option PDate :=
  if v.data = [] then none
  else
    match searchDayRange v.data with
    | some (d1, d2, mon, yr) =>
      let ds : Chars := (if hasClose then d2 else d1) ++ ' ' :: (mon ++ ' ' :: yr)
      match parse_date ⟨ds⟩ with
      | some p => some p
      | none => ipoDateRangeP2 hasClose v
    | none => ipoDateRangeP2 hasClose v

/-! ## Batch scraping (`scrape_ipo_batch` / `scrape_ncd_batch`,
`app/api/ipo.py` and `app/api/ncd.py`)

Per-URL scraping (download, parse, record assembly, schema validation)
either returns a record or raises; it is modelled as a function into
`Except String R`.  The batch endpoint loops over the URLs appending one
item per URL, catching every exception. -/

deriving instance DecidableEq for Except

structure ScrapeBatchItem (R : Type) where
  url : String
  data : Option R
  error : Option String
deriving DecidableEq, Repr

/-- The body of the batch loop for one URL: an `ok` result gives
`ScrapeBatchItem(url=u, data=..., error=None)`, an exception gives
`ScrapeBatchItem(url=u, data=None, error=str(e))`. -/
def scrapeOne {R : Type} (scrape : String → Except String R) (u : String) :
    ScrapeBatchItem R :=
  match scrape u with
  | Except.ok r => ⟨u, some r, none⟩
  | Except.error e => ⟨u, none, some e⟩

/-- `scrape_ipo_batch` / `scrape_ncd_batch`: the appending loop is a map
of the per-URL body over the input list. -/
def scrape_batch {R : Type} (scrape : String → Except String R)
    (urls : List String) : List (ScrapeBatchItem R) :=
  urls.map (scrapeOne scrape)

/-! ## Reservations (`_extract_reservations`, `app/scraper/chittorgarh.py`) -/

def firstSome {α β : Type} : List α → (α → Option β) → Option β
  | [], _ => none
  | a :: rest, f =>
    match f a with
    | some b => some b
    | none => firstSome rest f

/-- `[n, n-1, ..., 1]`. -/
def countdown : Nat → List Nat
  | 0 => []
  | n + 1 => (n + 1) :: countdown n

/-- `[n, n-1, ..., 0]`. -/
def countdownZ (n : Nat) : List Nat := countdown n ++ [0]

/-- Attempt `(\d+\.?\d*)\s*%` at the head of `cs` with full regex
backtracking: `\d+` greedy from the maximal run down to one digit, `\.?`
with the dot before without, `\d*` greedy down to zero, `\s*` greedy down
to zero, then a literal `%`.  Returns the captured group's value. -/
def pctTryAt (cs : Chars) : Option ℚ :=
  let L := (cs.takeWhile Char.isDigit).length
  if L = 0 then none
  else
    firstSome (countdown L) fun i1 =>
      let intD := cs.take i1
      let after := cs.drop i1
      let finish (ip fp rest2 : Chars) : Option ℚ :=
        let W := (rest2.takeWhile pySpace).length
        firstSome (countdownZ W) fun w =>
          match rest2.drop w with
          | c :: _ => if c = '%' then some (ratOfParts ip fp) else none
          | [] => none
      match after with
      | c :: r2 =>
        if c = '.' then
          let M := (r2.takeWhile Char.isDigit).length
          match firstSome (countdownZ M) fun j => finish intD (r2.take j) (r2.drop j) with
          | some q => some q
          | none => finish intD [] after
        else
          let M := (after.takeWhile Char.isDigit).length
          firstSome (countdownZ M) fun j =>
            finish (intD ++ after.take j) [] (after.drop j)
      | [] => finish intD [] []

/-- `re.search(r"(\d+\.?\d*)\s*%", val)` returning the group as a float. -/
def findPercent (s : String) : Option ℚ :=
  searchAux pctTryAt s.data.length s.data

/-- The reservation-category keys declared by `_extract_reservations`. -/
inductive ResKey
  | qib | anchor | exAnchor | nii | bnii | snii | retail
  | employee | shareholder | other | total
deriving DecidableEq, Repr

/-- The accumulator `r = {k: None for k in [...]}`. -/
structure ResAcc where
  qib : Option ℚ := none
  anchor : Option ℚ := none
  exAnchor : Option ℚ := none
  nii : Option ℚ := none
  bnii : Option ℚ := none
  snii : Option ℚ := none
  retail : Option ℚ := none
  employee : Option ℚ := none
  shareholder : Option ℚ := none
  other : Option ℚ := none
  total : Option ℚ := none
deriving DecidableEq, Repr

def ResAcc.init : ResAcc := {}

def ResAcc.get (r : ResAcc) : ResKey → Option ℚ
  | ResKey.qib => r.qib
  | ResKey.anchor => r.anchor
  | ResKey.exAnchor => r.exAnchor
  | ResKey.nii => r.nii
  | ResKey.bnii => r.bnii
  | ResKey.snii => r.snii
  | ResKey.retail => r.retail
  | ResKey.employee => r.employee
  | ResKey.shareholder => r.shareholder
  | ResKey.other => r.other
  | ResKey.total => r.total

def ResAcc.set (r : ResAcc) (k : ResKey) (v : Option ℚ) : ResAcc :=
  match k with
  | ResKey.qib => { r with qib := v }
  | ResKey.anchor => { r with anchor := v }
  | ResKey.exAnchor => { r with exAnchor := v }
  | ResKey.nii => { r with nii := v }
  | ResKey.bnii => { r with bnii := v }
  | ResKey.snii => { r with snii := v }
  | ResKey.retail => { r with retail := v }
  | ResKey.employee => { r with employee := v }
  | ResKey.shareholder => { r with shareholder := v }
  | ResKey.other => { r with other := v }
  | ResKey.total => { r with total := v }

/-- The final record: `{k: (v or 0) for k, v in r.items()}` (a missing or
unparsed percentage becomes `0`, and `0.0 or 0` is `0` as well). -/
structure ResRec where
  qib : ℚ
  anchor : ℚ
  exAnchor : ℚ
  nii : ℚ
  bnii : ℚ
  snii : ℚ
  retail : ℚ
  employee : ℚ
  shareholder : ℚ
  other : ℚ
  total : ℚ
deriving DecidableEq, Repr

def ResRec.get (r : ResRec) : ResKey → ℚ
  | ResKey.qib => r.qib
  | ResKey.anchor => r.anchor
  | ResKey.exAnchor => r.exAnchor
  | ResKey.nii => r.nii
  | ResKey.bnii => r.bnii
  | ResKey.snii => r.snii
  | ResKey.retail => r.retail
  | ResKey.employee => r.employee
  | ResKey.shareholder => r.shareholder
  | ResKey.other => r.other
  | ResKey.total => r.total

def resFinalize (r : ResAcc) : ResRec :=
  ⟨r.qib.getD 0, r.anchor.getD 0, r.exAnchor.getD 0, r.nii.getD 0,
   r.bnii.getD 0, r.snii.getD 0, r.retail.getD 0, r.employee.getD 0,
   r.shareholder.getD 0, r.other.getD 0, r.total.getD 0⟩

def kwQib : String := "qib"
def kwAnchor : String := "anchor"
def kwEx : String := "ex"
def kwBnii : String := "bnii"
def kwBnii2 : String := "b-nii"
def kwSnii : String := "snii"
def kwSnii2 : String := "s-nii"
def kwNii : String := "nii"
def kwHni : String := "hni"
def kwRetail : String := "retail"
def kwEmployee : String := "employee"
def kwShareholder : String := "shareholder"
def kwTotal : String := "total"

/-- The `if`/`elif` chain of `_extract_reservations` classifying a row by
its (cleaned, lowercased) label cell. -/
def classifyReservation (label : String) : Option ResKey :=
  let has (kw : String) : Bool := containsL kw.data label.data
  if has kwQib && !has kwAnchor && !has kwEx then some ResKey.qib
  else if has kwAnchor && !has kwEx then some ResKey.anchor
  else if has kwEx && has kwAnchor then some ResKey.exAnchor
  else if has kwBnii || has kwBnii2 then some ResKey.bnii
  else if has kwSnii || has kwSnii2 then some ResKey.snii
  else if has kwNii || has kwHni then some ResKey.nii
  else if has kwRetail then some ResKey.retail
  else if has kwEmployee then some ResKey.employee
  else if has kwShareholder then some ResKey.shareholder
  else if has kwTotal then some ResKey.total
  else none

/-- One `tr` of the reservation table, as the list of its `td` texts. -/
def reservationStep (acc : ResAcc) (row : List String) : ResAcc :=
  match row with
  | c0 :: c1 :: _ =>
    let label := lowerS (clean_text c0)
    let p := findPercent (clean_text c1)
    match classifyReservation label with
    | some k => acc.set k p
    | none => acc
  | _ => acc

/-- The key a row would be classified under (rows with fewer than two
cells are skipped). -/
def reservationRowKey (row : List String) : Option ResKey :=
  match row with
  | c0 :: _ :: _ => classifyReservation (lowerS (clean_text c0))
  | _ => none

/-- `_extract_reservations`: `none` models a missing "IPO Reservation"
card, `some none` a card without a `table`, and `some (some rows)` the
table's rows (each row the list of its `td` texts). -/
def _extract_reservations (card : Option (Option (List (List String)))) :
    List ResRec :=
  match card with
  | none => []
  | some none => []
  | some (some rows) => [resFinalize (rows.foldl reservationStep ResAcc.init)]

/-! ## Promoters (`_extract_promoters` in `app/scraper/chittorgarh.py`
and `app/scraper/ncd.py`) -/

/-- Case-insensitive prefix test; `needle` is given lowercase. -/
def startsCIL : Chars → Chars → Bool
  | [], _ => true
  | _ :: _, [] => false
  | a :: as, b :: bs => a = b.toLower && startsCIL as bs

/-- Case-insensitive literal consumption. -/
def ciExpectL (lit : Chars) (cs : Chars) : Option Chars :=
  if startsCIL lit cs then some (cs.drop lit.length) else none

def promoPhrase : String := "are the company promoter"
def andStr : String := "and"
def skipWords : List String :=
  [r"rs.", r"lakh", r"mines", r"product", r"operations", r"square kilometre",
   r"tonnes", r"ipo ", r"apply", r"investor"]

/-- Does `\s+are the company promoter` (case-insensitively, as in the
pattern `(.+?)\s+are the company promoters?\.?` with `re.I`) match at the
head of `cs`? -/
def promoMatchAfter (cs : Chars) : Bool :=
  match matchWs1 cs with
  | none => false
  | some r => startsCIL promoPhrase.data r

/-- Lazy expansion of the leading `(.+?)` group: smallest nonempty prefix
whose remainder matches the rest of the pattern.  `pre` holds the
reversed prefix taken so far. -/
def promoGroupAux (pre : Chars) : Chars → Option Chars
  | [] => none
  | d :: suf =>
    if promoMatchAfter (d :: suf) then some pre.reverse
    else promoGroupAux (d :: pre) suf

/-- Attempt the promoter-sentence pattern with the group starting at the
head of `cs`. -/
def promoGroupAt (cs : Chars) : Option Chars :=
  match cs with
  | [] => none
  | c :: rest => promoGroupAux [c] rest

/-- `re.search(r"(.+?)\s+are the company promoters?\.?", t, re.I | re.S)`:
leftmost starting position, then shortest group. -/
def promoSearch (cs : Chars) : Option Chars :=
  searchAux promoGroupAt cs.length cs

/-- Separator `\s+and\s+` at the head of `cs` (case-sensitive), returning
the number of characters consumed. -/
def sepAndAt (cs : Chars) : Option Nat :=
  let p := cs.span pySpace
  if p.1 = [] then none
  else if startsL andStr.data p.2 then
    let r2 := p.2.drop 3
    let q := r2.span pySpace
    if q.1 = [] then none else some (p.1.length + 3 + q.1.length)
  else none

/-- Separator `\s+and\s+|\s*,\s*` at the head of `cs` (the NCD promoter
split): the first alternative is tried before the comma one. -/
def sepAndCommaAt (cs : Chars) : Option Nat :=
  match sepAndAt cs with
  | some n => some n
  | none =>
    let p := cs.span pySpace
    match p.2 with
    | c :: r2 =>
      if c = ',' then
        let q := r2.span pySpace
        some (p.1.length + 1 + q.1.length)
      else none
    | [] => none

/-- `re.split` with a separator matcher: scan left to right, cutting at
every leftmost separator match. -/
def splitByAux (sepAt : Chars → Option Nat) (fuel : Nat) (cur : Chars)
    (cs : Chars) : List Chars :=
  match fuel with
  | 0 => [cur.reverse ++ cs]
  | fuel + 1 =>
    match cs with
    | [] => [cur.reverse]
    | c :: rest =>
      match sepAt (c :: rest) with
      | some n => cur.reverse :: splitByAux sepAt fuel [] ((c :: rest).drop n)
      | none => splitByAux sepAt fuel (c :: cur) rest

def splitBy (sepAt : Chars → Option Nat) (cs : Chars) : List Chars :=
  splitByAux sepAt (cs.length + 1) [] cs

/-- Method 1 of the IPO `_extract_promoters`, applied to the cleaned text
`t` of one candidate element (`div`, `p` or `td`): the guard
`"are the company promoter" in t.lower() and len(t) <= 500`, the
sentence regex, the 400-character bound on the cleaned group, the split
on `\s+and\s+` and the skip-word / length filters.  `none` means the loop
continues with the next element. -/
def ipoPromotersFromText (t : String) : Option (List String) :=
  if !(containsL promoPhrase.data (lowerL t.data)) || 500 < t.data.length then none
  else
    match promoSearch t.data with
    | none => none
    | some g =>
      let rest := cleanL g
      if 400 < rest.length then none
      else
        let parts := ((splitBy sepAndAt rest).map cleanL).filter (fun p => p ≠ [])
        if parts = [] then none
        else if parts.any (fun p =>
            skipWords.any (fun s => containsL s.data (lowerL p)) || 120 < p.length) then
          none
        else some (parts.map (fun p => (⟨p⟩ : String)))

/-- Method 1 over the document's candidate elements in order. -/
def ipoPromotersMethod1 (texts : List String) : Option (List String) :=
  firstSome texts ipoPromotersFromText

def areStr : String := "are"
def theStr : String := "the"
def companyStr : String := "company"
def promotersStr : String := "promoters"

/-- Does `\s+are\s+the\s+company\s+promoters\.?\s*$` (with `re.I`) match
the whole of `cs`? -/
def promoSuffixAt (cs : Chars) : Bool :=
  (do
    let r1 ← matchWs1 cs
    let r2 ← ciExpectL areStr.data r1
    let r3 ← matchWs1 r2
    let r4 ← ciExpectL theStr.data r3
    let r5 ← matchWs1 r4
    let r6 ← ciExpectL companyStr.data r5
    let r7 ← matchWs1 r6
    let r8 ← ciExpectL promotersStr.data r7
    let r9 :=
      match r8 with
      | c :: rr => if c = '.' then rr else r8
      | [] => r8
    if r9.all pySpace then some () else none).isSome

/-- `re.sub(r"\s+are\s+the\s+company\s+promoters\.?\s*$", "", t, re.I)`:
cut the text at the leftmost position where the end-anchored suffix
pattern matches. -/
def subPromoAux (fuel : Nat) (kept : Chars) (cs : Chars) : Chars :=
  match fuel with
  | 0 => kept.reverse ++ cs
  | fuel + 1 =>
    if promoSuffixAt cs then kept.reverse
    else
      match cs with
      | [] => kept.reverse
      | c :: rest => subPromoAux fuel (c :: kept) rest

def subPromoSuffix (cs : Chars) : Chars := subPromoAux (cs.length + 1) [] cs

/-- The split-and-clean tail of the NCD `_extract_promoters`
(`app/scraper/ncd.py` lines 439-443), applied to the promoter text:
remove the trailing sentence, split on `\s+and\s+|\s*,\s*`, clean every
part and keep those longer than two characters. -/
def ncdPromotersFromText (t : String) : List String :=
  let t2 := subPromoSuffix t.data
  let parts := (splitBy sepAndCommaAt t2).map cleanL
  (parts.filter (fun p => p ≠ [] && 2 < p.length)).map (fun p => (⟨p⟩ : String))

/-! ## Shared helpers for the assembler extractors -/

/-- Leftmost maximal run of characters satisfying `p` (a `re.search` of a
one-class `+` pattern). -/
def findRunP (p : Char → Bool) : Chars → Option Chars
  | [] => none
  | c :: rest => if p c then some ((c :: rest).takeWhile p) else findRunP p rest

/-- Python `str.split(sep)` for a one-character separator. -/
def splitChar (sep : Char) : Chars → List Chars
  | [] => [[]]
  | c :: rest =>
    if c = sep then [] :: splitChar sep rest
    else
      match splitChar sep rest with
      | part :: parts => (c :: part) :: parts
      | [] => [[c]]

/-- Python `str.replace(needle, "")` (remove all occurrences). -/
def removeAllSub (needle : Chars) (fuel : Nat) (cs : Chars) : Chars :=
  match fuel with
  | 0 => cs
  | fuel + 1 =>
    match cs with
    | [] => []
    | c :: rest =>
      if needle ≠ [] && startsL needle (c :: rest) then
        removeAllSub needle fuel ((c :: rest).drop needle.length)
      else c :: removeAllSub needle fuel rest

def removeSub (needle : Chars) (cs : Chars) : Chars :=
  removeAllSub needle cs.length cs

/-- `text.split(sep)[0]`: the part before the first occurrence of `sep`
(`text` itself when absent). -/
def splitBefore (sep : Chars) : Chars → Chars
  | [] => []
  | c :: rest =>
    if sep ≠ [] && startsL sep (c :: rest) then []
    else c :: splitBefore sep rest

/-- Python `str.lstrip(chars)`: drop leading characters from the set. -/
def lstripSet (set : Chars) (cs : Chars) : Chars :=
  cs.dropWhile (fun c => set.contains c)

/-- Python `str.rstrip(chars)`. -/
def rstripSet (set : Chars) (cs : Chars) : Chars :=
  (cs.reverse.dropWhile (fun c => set.contains c)).reverse

/-- Append keeping the first occurrence (`if x not in out: out.append(x)`). -/
def dedupAppend (acc : List String) (x : String) : List String :=
  if acc.contains x then acc else acc ++ [x]

def containsS (needle hay : String) : Bool := containsL needle.data hay.data

def pyOrStr (a b : String) : String := if a.data = [] then b else a

/-! ## Section models

Heading-anchored sections are modelled by the texts the extractors
query from them: paragraph texts, list-item texts (both raw, cleaning
happens inside the extractors as in the source) and, for the summary
section, the interleaving of paragraph and list blocks (needed for
`find_previous` / `find_next` sibling queries). -/

/-- A block inside `#ipoSummary` / `#about-company-section`. -/
inductive SBlock
  | para (text : String)
  | ulist (items : List String)
deriving DecidableEq, Repr

/-- A generic located section: its `p` texts and its `li` texts. -/
structure Sec where
  paragraphs : List String := []
  listItems : List String := []
deriving DecidableEq, Repr

def sblockText : SBlock → String
  | SBlock.para t => t
  | SBlock.ulist items => String.join items

/-- `section.get_text()` of the summary section: concatenation of the
block texts in document order. -/
def summaryText (blocks : List SBlock) : String :=
  String.join (blocks.map sblockText)

def summaryParas (blocks : List SBlock) : List String :=
  blocks.filterMap (fun b =>
    match b with
    | SBlock.para t => some t
    | SBlock.ulist _ => none)

/-- The `ul`s of the summary section, each paired with the text of the
nearest preceding paragraph (`ul.find_previous(["p", "strong"])`). -/
def summaryUls (lastPara : Option String) : List SBlock → List (Option String × List String)
  | [] => []
  | SBlock.para t :: rest => summaryUls (some t) rest
  | SBlock.ulist items :: rest => (lastPara, items) :: summaryUls lastPara rest

/-- `extract_list` from `app/scraper/parser.py`: every `li` text cleaned,
with no filtering. -/
def extract_list (sec : Sec) : List String := sec.listItems.map clean_text

def qmStr : String := "?"
def excludeAbout : List String :=
  [r"IPO Reports", r"eBook", r"Broker", r"Zerodha", r"Angel One",
   r"More Brokers", r"List of", r"Performance", r"Read More"]

def competitiveStr : String := "competitive"
def strengthStr : String := "strength"
def strenghtStr : String := "strenght"

/-- Is this paragraph the "Competitive Strengths" sub-heading? -/
def isCompetitiveStrength (t : String) : Bool :=
  let l := lowerL t.data
  containsL competitiveStr.data l &&
    (containsL strengthStr.data l || containsL strenghtStr.data l)

/-- `_extract_about_company` (`app/scraper/chittorgarh.py`): paragraphs of
the summary section longer than 30 characters without excluded phrases,
then `ul` items longer than 20 characters (skipping the ul following the
"Competitive Strengths" sub-heading); when nothing was found, the
paragraphs (longer than 30) of a heading-located fallback section. -/
def _extract_about_company (summary : Option (List SBlock)) (fallback : Option Sec) :
    List String :=
  let fromSummary :=
    match summary with
    | none => []
    | some blocks =>
      let ps := (summaryParas blocks).filterMap (fun t0 =>
        let t := clean_text t0
        if t.data ≠ [] && 30 < t.length &&
            !(excludeAbout.any (fun k => containsS k t)) then some t else none)
      let uls := (summaryUls none blocks).flatMap (fun pr =>
        if (pr.1.map (fun pt => isCompetitiveStrength pt)).getD false then []
        else
          pr.2.filterMap (fun li =>
            let t := clean_text li
            if t.data ≠ [] && 20 < t.length &&
                !(excludeAbout.any (fun k => containsS k t)) then some t else none))
      ps ++ uls
  if fromSummary ≠ [] then fromSummary
  else
    match fallback with
    | none => []
    | some s =>
      s.paragraphs.filterMap (fun t0 =>
        let t := clean_text t0
        if t.data ≠ [] && 30 < t.length then some t else none)

/-- First `ulist` block of a block list (`p.find_next("ul")`). -/
def firstUl : List SBlock → Option (List String)
  | [] => none
  | SBlock.para _ :: rest => firstUl rest
  | SBlock.ulist items :: _ => some items

/-- The paragraph scan of `_extract_strengths`: for the first
"Competitive Strengths" paragraph followed by a `ul`, the cleaned
nonempty items of that `ul`. -/
def strengthsScan : List SBlock → Option (List String)
  | [] => none
  | SBlock.para t :: rest =>
    if isCompetitiveStrength t then
      match firstUl rest with
      | some items => some ((items.map clean_text).filter (fun x => x.data ≠ []))
      | none => strengthsScan rest
    else strengthsScan rest
  | SBlock.ulist _ :: rest => strengthsScan rest

/-- `_extract_strengths` (`app/scraper/chittorgarh.py`). -/
def _extract_strengths (summary : Option (List SBlock)) (fallback : Option Sec) :
    List String :=
  let fromSummary :=
    match summary with
    | none => none
    | some blocks => strengthsScan blocks
  match fromSummary with
  | some out => out
  | none =>
    match fallback with
    | none => []
    | some s =>
      let out := extract_list s
      if out ≠ [] then out
      else (s.paragraphs.map clean_text).filter (fun t => t.data ≠ [])

/-- The common body of `_extract_weaknesses`, `_extract_opportunities`
and `_extract_threats`: `extract_list` of the located section, falling
back to its nonempty cleaned paragraphs. -/
def swotExtract (sec : Option Sec) : List String :=
  match sec with
  | none => []
  | some s =>
    let out := extract_list s
    if out = [] then (s.paragraphs.map clean_text).filter (fun t => t.data ≠ [])
    else out

def prodPhrase : String := "production of"
def primaryStr : String := "primary"
def productStr : String := "product"
def isStr : String := "is"

/-- Attempt `production of\s+([^.]+?)(?:\.|$)` (with `re.I`) at the head
of `cs`: the phrase, whitespace, then the group up to the first dot. -/
def prodAt (cs : Chars) : Option Chars := do
  let r1 ← ciExpectL prodPhrase.data cs
  let r2 ← matchWs1 r1
  let g := r2.takeWhile (fun c => c ≠ '.')
  if g = [] then none else some g

def searchProductionOf (cs : Chars) : Option Chars := searchAux prodAt cs.length cs

/-- Attempt `primary\s+product[s]?\s+is\s+([^.]+?)(?:\.|,|$)` at the head
of `cs`. -/
def primaryAt (cs : Chars) : Option Chars := do
  let r1 ← ciExpectL primaryStr.data cs
  let r2 ← matchWs1 r1
  let r3 ← ciExpectL productStr.data r2
  let r4 :=
    match r3 with
    | c :: rr => if c.toLower = 's' then rr else r3
    | [] => r3
  let r5 ← matchWs1 r4
  let r6 ← ciExpectL isStr.data r5
  let r7 ← matchWs1 r6
  let g := r7.takeWhile (fun c => c ≠ '.' && c ≠ ',')
  if g = [] then none else some g

def searchPrimaryProduct (cs : Chars) : Option Chars := searchAux primaryAt cs.length cs

/-- Separator `,\s*and\s+|\s+and\s+|,` of the products split. -/
def sepProdAt (cs : Chars) : Option Nat :=
  let alt1 : Option Nat :=
    match cs with
    | c :: r =>
      if c = ',' then
        let q := r.span pySpace
        if startsL andStr.data q.2 then
          let w2 := (q.2.drop 3).span pySpace
          if w2.1 = [] then none else some (1 + q.1.length + 3 + w2.1.length)
        else none
      else none
    | [] => none
  match alt1 with
  | some n => some n
  | none =>
    match sepAndAt cs with
    | some n => some n
    | none =>
      match cs with
      | c :: _ => if c = ',' then some 1 else none
      | [] => none

/-- Split a matched narrative group on the products separator, clean each
part and keep those longer than two characters. -/
def prodParts (g : Chars) : List String :=
  ((splitBy sepProdAt g).map cleanL).filterMap (fun t =>
    if t ≠ [] && 2 < t.length then some (⟨t⟩ : String) else none)

/-- `_extract_products` (`app/scraper/chittorgarh.py`): a dedicated
section first, then the "production of"/"primary product is" narrative
patterns over the summary text. -/
def _extract_products (sec : Option Sec) (summary : Option (List SBlock)) :
    List String :=
  let fromSec :=
    match sec with
    | none => []
    | some s =>
      let out := extract_list s
      if out = [] then (s.paragraphs.map clean_text).filter (fun t => t.data ≠ [])
      else out
  if fromSec ≠ [] then fromSec
  else
    match summary with
    | none => []
    | some blocks =>
      let text := summaryText blocks
      let ps1 :=
        match searchProductionOf text.data with
        | some g => prodParts g
        | none => []
      if ps1 ≠ [] then ps1
      else
        match searchPrimaryProduct text.data with
        | some g => prodParts g
        | none => []

def excludeServices : List String :=
  [r"Broker", r"Zerodha", r"Angel One", r"Kotak", r"Motilal", r"Upstox",
   r"5Paisa", r"More Brokers", r"Report", r"Review", r"Indiabulls",
   r"Full Service", r"Full-Service"]

def operationsStr : String := "operations"
def servicesStr : String := "services"
def businessStr : String := "business"
def includeStr : String := "include"
def andSetStr : String := "and "
def dotCommaStr : String := ".,"
def brokerStr : String := "broker"
def fullServiceDashStr : String := "full-service"
def fullServiceStr : String := "full service"

/-- Attempt one of the service patterns
`<word>\s+includes?\s+([^.]+\.?)` at the head of `cs` (the greedy group:
up to the first dot, including it). -/
def svcAt (word : Chars) (optS : Bool) (cs : Chars) : Option Chars := do
  let r1 ← ciExpectL word cs
  let r2 ← matchWs1 r1
  let r3 ← ciExpectL includeStr.data r2
  let r4 :=
    if optS then
      match r3 with
      | c :: rr => if c.toLower = 's' then rr else r3
      | [] => r3
    else r3
  let r5 ← matchWs1 r4
  let g := r5.takeWhile (fun c => c ≠ '.')
  if g = [] then none
  else
    match r5.drop g.length with
    | c :: _ => if c = '.' then some (g ++ [c]) else some g
    | [] => some g

/-- Separator `,\s+|\s+and\s+` of the services split. -/
def sepSvcAt (cs : Chars) : Option Nat :=
  let alt1 : Option Nat :=
    match cs with
    | c :: r =>
      if c = ',' then
        let q := r.span pySpace
        if q.1 = [] then none else some (1 + q.1.length)
      else none
    | [] => none
  match alt1 with
  | some n => some n
  | none => sepAndAt cs

/-- One part of the services split:
`clean_text(part).strip().lstrip("and ").rstrip(".,")` with the length
and exclusion filters. -/
def svcPart (part : Chars) : Option String :=
  let t := rstripSet dotCommaStr.data (lstripSet andSetStr.data (cleanL part))
  if t ≠ [] && 10 < t.length && t.length < 250 &&
      !(excludeServices.any (fun k => containsL k.data t)) then some (⟨t⟩ : String)
  else none

/-- `_extract_services` (`app/scraper/chittorgarh.py`): the narrative
"operations include" / "services include" / "business include(s)"
patterns over the summary text first (stopping at the first pattern that
matches), then a dedicated section guarded by its heading text. -/
def _extract_services (summary : Option (List SBlock))
    (svcSec : Option (Sec × Option String)) : List String :=
  let fromSummary :=
    match summary with
    | none => []
    | some blocks =>
      let text := (summaryText blocks).data
      let m :=
        match searchAux (svcAt operationsStr.data false) text.length text with
        | some g => some g
        | none =>
          match searchAux (svcAt servicesStr.data false) text.length text with
          | some g => some g
          | none => searchAux (svcAt businessStr.data true) text.length text
      match m with
      | some g => (splitBy sepSvcAt g).filterMap svcPart
      | none => []
  if fromSummary ≠ [] then fromSummary
  else
    match svcSec with
    | none => []
    | some (s, heading) =>
      let ht := (heading.map (fun h => lowerS h)).getD ""
      if containsS brokerStr ht || containsS fullServiceDashStr ht ||
          containsS fullServiceStr ht then []
      else
        let lis := s.listItems.filterMap (fun li =>
          let t := clean_text li
          if t.data ≠ [] && !(excludeServices.any (fun k => containsS k t)) then
            some t
          else none)
        if lis ≠ [] then lis
        else
          s.paragraphs.filterMap (fun p =>
            let t := clean_text p
            if t.data ≠ [] && !(excludeServices.any (fun k => containsS k t)) then
              some t
            else none)

/-! ## IPO promoters, lead managers and table extractors -/

/-- The section input of the IPO `_extract_promoters` Method 2: list
items, paragraph texts and `div` texts (all raw). -/
structure PromSec where
  listItems : List String := []
  paragraphs : List String := []
  divTexts : List String := []
deriving DecidableEq, Repr

/-- The paragraph loop of Method 2: phrase paragraphs return immediately
after the conjunction split; other medium-length paragraphs accumulate.
The boolean records an early `return`. -/
def promoParaLoop (acc : List String) : List String → List String × Bool
  | [] => (acc, false)
  | t0 :: rest =>
    let t := clean_text t0
    if t.data ≠ [] && containsL promoPhrase.data (lowerL t.data) then
      match promoSearch t.data with
      | some g =>
        let parts := ((splitBy sepAndAt (cleanL g)).map cleanL).filterMap (fun x =>
          if x ≠ [] && 2 < x.length then some (⟨x⟩ : String) else none)
        (acc ++ parts, true)
      | none => promoParaLoop acc rest
    else if t.data ≠ [] && 5 < t.length && t.length < 300 then
      promoParaLoop (acc ++ [t]) rest
    else promoParaLoop acc rest

/-- Separator `[,;]\s*|\s+and\s+` of the IPO promoter table split. -/
def sepPromTblAt (cs : Chars) : Option Nat :=
  match cs with
  | c :: r =>
    if c = ',' || c = ';' then
      let q := r.span pySpace
      some (1 + q.1.length)
    else sepAndAt (c :: r)
  | [] => none

/-- Method 3 of the IPO `_extract_promoters`: split the table value on
`[,;]\s*|\s+and\s+` and keep the nonempty cleaned parts. -/
def promoTableSplit (pt : String) : List String :=
  ((splitBy sepPromTblAt pt.data).map cleanL).filterMap (fun p =>
    if p ≠ [] then some (⟨p⟩ : String) else none)

/-- `_extract_promoters` (`app/scraper/chittorgarh.py`): the narrative
sentence over all `div`/`p`/`td` texts, then the located section (list
items, the paragraph loop, the `div` scan), then the table value. -/
def _extract_promoters (candTexts : List String) (sec : Option PromSec)
    (tableValue : Option String) : List String :=
  let method3 : List String :=
    match tableValue with
    | some pt => if pt.data = [] then [] else promoTableSplit pt
    | none => []
  match ipoPromotersMethod1 (candTexts.map clean_text) with
  | some ps => ps
  | none =>
    match sec with
    | none => method3
    | some s =>
      let out := s.listItems.map clean_text
      if out ≠ [] then out
      else
        match promoParaLoop [] s.paragraphs with
        | (ps, true) => ps
        | (ps, false) =>
          let ps2 :=
            if ps = [] then
              (s.divTexts.map clean_text).filter (fun t =>
                t.data ≠ [] && 10 < t.length && t.length < 200)
            else ps
          if ps2 = [] then method3 else ps2

def excludeLm : List String :=
  [r"List of Issues", r"No. of Issues", r"Performance", r"Report",
   r"Market Maker", r"Registrar", r"Broker Report", r"IPO Report"]

def aParenStr : String := "A ("
def parenStr : String := "("
def performanceStr : String := "Performance"
def reportStr : String := "Report"
def ltdStr : String := "Ltd"
def limitedStr : String := "Limited"
def securitiesStr : String := "Securities"
def nlStr : String := "\n"

/-- One `li` of the lead-manager ordered list (Method 1), with Python's
`and`/`or` precedence in the final test:
`(text and len(text) > 3 and "Ltd" in text) or "Limited" in text or "Securities" in text`. -/
def lmItemStep (acc : List String) (li : String) : List String :=
  let text := clean_text li
  if excludeLm.any (fun k => containsS k text) then acc
  else
    let text :=
      if containsS aParenStr text then ⟨pyStrip (splitBefore aParenStr.data text.data)⟩
      else if containsS parenStr text then
        if !(containsS performanceStr text) && !(containsS reportStr text) then
          (⟨pyStrip (splitBefore parenStr.data text.data)⟩ : String)
        else text
      else text
    if (text.data ≠ [] && 3 < text.length && containsS ltdStr text) ||
        containsS limitedStr text || containsS securitiesStr text then
      dedupAppend acc text
    else acc

/-- `_extract_lead_managers` (`app/scraper/chittorgarh.py`): the ordered
list under the "Lead Manager" section, then the review links, then the
table value split on commas. -/
def _extract_lead_managers (olItems : Option (List String))
    (reviewLinkTexts : List String) (tableValue : Option String) : List String :=
  let m1 :=
    match olItems with
    | none => []
    | some lis => lis.foldl lmItemStep []
  if m1 ≠ [] then m1
  else
    let m2 := reviewLinkTexts.foldl (fun acc l =>
      let text := clean_text l
      if text.data ≠ [] && !(excludeLm.any (fun k => containsS k text)) then
        dedupAppend acc text
      else acc) []
    if m2 ≠ [] then m2
    else
      match tableValue with
      | none => []
      | some v =>
        if v.data = [] then []
        else
          let items := ((splitChar ',' (v.data.map (fun c =>
            if c = '\n' then ',' else c))).map pyStrip).filter (fun i => i ≠ [])
          items.foldl (fun acc i =>
            let item : String := ⟨i⟩
            if !(excludeLm.any (fun k => containsS k item)) then dedupAppend acc item
            else acc) []

/-- A table as read by the extractors: the `th` texts of its first row
and the `td` texts of the remaining rows (all raw). -/
structure RawTable where
  firstRowThs : List String := []
  bodyRows : List (List String) := []
deriving DecidableEq, Repr

structure Objective where
  sno : Nat
  description : String
  amount_crore : ℚ
deriving DecidableEq, Repr

def hashStr : String := "#"
def snoStr : String := "sno"
def objectStr : String := "object"
def descStr : String := "desc"
def amtStr : String := "amt"
def amountStr : String := "amount"
def crStr : String := "cr"

def idxOfD (p : String → Bool) (hs : List String) (dflt : Nat) : Nat :=
  (hs.findIdx? p).getD dflt

/-- `_extract_objectives` (`app/scraper/chittorgarh.py`): header-keyword
column resolution with defaults 0/1/2, then one record per row with a
nonempty description; a falsy serial number becomes the running index and
a missing amount becomes 0. -/
def _extract_objectives (table : Option RawTable) : List Objective :=
  match table with
  | none => []
  | some t =>
    if t.bodyRows = [] then []
    else
      let headers := t.firstRowThs.map (fun h => lowerS (clean_text h))
      let sni := idxOfD (fun h => h = hashStr || containsS snoStr h) headers 0
      let desci := idxOfD (fun h => containsS objectStr h || containsS descStr h) headers 1
      let amti := idxOfD (fun h => containsS amtStr h || containsS amountStr h ||
        containsS crStr h) headers 2
      (t.bodyRows.foldl (fun acc cells =>
        if cells.length ≤ max sni (max desci amti) then acc
        else
          let sno := parse_int (clean_text ((cells.get? sni).getD ""))
          let desc := clean_text ((cells.get? desci).getD "")
          let amt := parse_float (clean_text ((cells.get? amti).getD ""))
          if desc.data ≠ [] then
            acc ++ [⟨if (sno.getD 0) = 0 then acc.length + 1 else sno.getD 0,
                     desc, amt.getD 0⟩]
          else acc) [])

structure FinPeriod where
  period_label : String
  period_end_date : Option PDate
  assets : Option ℚ
  total_income : Option ℚ
  pat : Option ℚ
  ebitda : Option ℚ
  net_worth : Option ℚ
  reserves : Option ℚ
  borrowings : Option ℚ
deriving DecidableEq, Repr

structure FinRows where
  assets : Option (List (Option ℚ)) := none
  total_income : Option (List (Option ℚ)) := none
  pat : Option (List (Option ℚ)) := none
  ebitda : Option (List (Option ℚ)) := none
  net_worth : Option (List (Option ℚ)) := none
  reserves : Option (List (Option ℚ)) := none
  borrowings : Option (List (Option ℚ)) := none
deriving DecidableEq, Repr

def assetKw : String := "asset"
def totalIncomeKw : String := "total income"
def patKw : String := "profit after tax"
def ebitdaKw : String := "ebitda"
def netWorthKw : String := "net worth"
def reserveKw : String := "reserve"
def borrowingKw : String := "borrowing"

/-- The row-classification loop of `_extract_financials` (first matching
key in dict order wins; later rows with the same key overwrite). -/
def finRowStep (acc : FinRows) (cells : List String) : FinRows :=
  match cells with
  | [] => acc
  | c0 :: rest =>
    let label := lowerS (clean_text c0)
    let vals := rest.map (fun c => parse_float (clean_text c))
    if containsS assetKw label then { acc with assets := some vals }
    else if containsS totalIncomeKw label then { acc with total_income := some vals }
    else if containsS patKw label then { acc with pat := some vals }
    else if containsS ebitdaKw label then { acc with ebitda := some vals }
    else if containsS netWorthKw label then { acc with net_worth := some vals }
    else if containsS reserveKw label then { acc with reserves := some vals }
    else if containsS borrowingKw label then { acc with borrowings := some vals }
    else acc

/-- `row_vals.get(key, [None] * n)[ci]`: the stored row list is indexed
directly and a short row raises `IndexError` (the default only arises for
a missing key and has length `n > ci`). -/
def finIndex (l : Option (List (Option ℚ))) (ci : Nat) : Except Unit (Option ℚ) :=
  match l with
  | none => Except.ok none
  | some vs =>
    match vs.get? ci with
    | some v => Except.ok v
    | none => Except.error ()

/-- `datetime.strptime(label, "%d %b %Y")` for the period header. -/
def matchDMY (cs : Chars) : Option (Nat × Nat × Nat) :=
  let tail (r : Chars) : Option (Nat × Nat) := do
    let r1 ← matchWs1 r
    let (m, r2) ← matchNameAux monthAbbrs 0 r1
    let r3 ← matchWs1 r2
    if r3.length = 4 && r3.all Char.isDigit then some (m, natOfDigits r3) else none
  match cs with
  | a :: b :: r =>
    if a.isDigit && b.isDigit && twoDigitDayOk a b then
      match tail r with
      | some (m, y) => some (y, m, natOfDigits [a, b])
      | none =>
        if oneDigitDayOk a then (tail (b :: r)).map (fun pr => (pr.2, pr.1, digitVal a))
        else none
    else if oneDigitDayOk a then (tail (b :: r)).map (fun pr => (pr.2, pr.1, digitVal a))
    else none
  | [_] => none
  | [] => none

def parseDateDMY (s : String) : Option PDate :=
  match matchDMY (pyStrip s.data) with
  | some (y, m, d) => mkValidDate y m d
  | none => none

/-- `_extract_financials` (`app/scraper/chittorgarh.py`): one record per
period column; the `#financialTable` header row gives the period labels,
keyword-classified rows give the values. -/
def _extract_financials (table : Option RawTable) : Except Unit (List FinPeriod) :=
  match table with
  | none => Except.ok []
  | some t =>
    if t.bodyRows = [] then Except.ok []
    else
      let headers := t.firstRowThs.map clean_text
      let rowVals := t.bodyRows.foldl finRowStep {}
      let n := headers.length - 1
      (List.range n).mapM (fun ci => do
        let label := (headers.get? (ci + 1)).getD ""
        let pd := parseDateDMY label
        let a ← finIndex rowVals.assets ci
        let ti ← finIndex rowVals.total_income ci
        let pa ← finIndex rowVals.pat ci
        let eb ← finIndex rowVals.ebitda ci
        let nw ← finIndex rowVals.net_worth ci
        let re ← finIndex rowVals.reserves ci
        let bo ← finIndex rowVals.borrowings ci
        pure ⟨label, pd, a, ti, pa, eb, nw, re, bo⟩)

structure Peer where
  company : String
  eps_basic : ℚ
  eps_diluted : ℚ
  nav : ℚ
  pe : ℚ
  ronw : ℚ
deriving DecidableEq, Repr

/-- `dict(zip(headers, cells))[k]`: last index inside the zip range whose
header equals `k`. -/
def dictZipGet (headers cells : List String) (k : String) : Option String :=
  ((headers.zip cells).reverse.find? (fun pr => pr.1 = k)).map (fun pr => pr.2)

/-- `row.get(k1) or row.get(k2) or default` over the zipped dict. -/
def dictGetOr2 (headers cells : List String) (k1 k2 : String) : Option String :=
  match dictZipGet headers cells k1 with
  | some v => if v.data = [] then dictZipGet headers cells k2 else some v
  | none => dictZipGet headers cells k2

def companyNameKey : String := "Company Name"
def companyKey : String := "company"
def epsBasicKey : String := "EPS (Basic)"
def epsDilutedKey : String := "EPS (Diluted)"
def navFullKey : String := "NAV (₹ per share)"
def navKey : String := "NAV"
def peKey : String := "P/E"
def peKey2 : String := "PE"
def ronwKey : String := "RoNW"
def ronwKey2 : String := "RONW"
def ronwKey3 : String := "RoNW (%)"

/-- `parse_float(opt) or 0`. -/
def pfOr0 (v : Option String) : ℚ :=
  match v with
  | none => 0
  | some s => (parse_float s).getD 0

/-- `_extract_peers` (`app/scraper/chittorgarh.py`): over the rows of
`extract_table_data` on `#analysisTable` (cells and headers cleaned,
`dict(zip(headers, cells))` per row), keeping rows with a nonempty
company name. -/
def _extract_peers (table : Option RawTable) : List Peer :=
  match table with
  | none => []
  | some t =>
    let headers := t.firstRowThs.map clean_text
    t.bodyRows.filterMap (fun cells0 =>
      if cells0 = [] then none
      else
        let cells := cells0.map clean_text
        let company : String :=
          ⟨pyStrip (((dictGetOr2 headers cells companyNameKey companyKey).getD "").data)⟩
        if company.data = [] then none
        else
          some ⟨company,
            pfOr0 (dictZipGet headers cells epsBasicKey),
            pfOr0 (dictZipGet headers cells epsDilutedKey),
            pfOr0 (dictGetOr2 headers cells navFullKey navKey),
            pfOr0 (dictGetOr2 headers cells peKey peKey2),
            match dictGetOr2 headers cells ronwKey ronwKey2 with
            | some v => if v.data = [] then pfOr0 (dictZipGet headers cells ronwKey3)
                        else pfOr0 (some v)
            | none => pfOr0 (dictZipGet headers cells ronwKey3)⟩)

/-! ## Contacts, RHP insights and FAQs -/

/-- One `li` of a `ul.registrar-info`: the space-joined classes of its
icon, its raw text, and the `href` of its first link, if any. -/
structure RegLi where
  icon : String := ""
  text : String := ""
  href : Option String := none
deriving DecidableEq, Repr

structure RegInfo where
  phone_numbers : List String := []
  email : String := ""
  website : String := ""
deriving DecidableEq, Repr

def envelopeStr : String := "envelope"
def atStr : String := "@"
def phoneStr : String := "phone"
def globeStr : String := "globe"
def mailtoStr : String := "mailto:"
def httpStr : String := "http"

/-- Character class of `[\d\s\+\-\(\)]+` (phone-number runs). -/
def phoneClass (c : Char) : Bool :=
  c.isDigit || pySpace c || c = '+' || c = '-' || c = '(' || c = ')'

/-- The branch of `parse_registrar_info_ul` for one `li`. -/
def regLiStep (acc : RegInfo) (li : RegLi) : RegInfo :=
  let text := clean_text li.text
  if containsS envelopeStr li.icon || containsS atStr text then
    let email :=
      if containsS atStr text then text.data
      else
        match li.href with
        | some h =>
          if containsS mailtoStr h then removeSub mailtoStr.data h.data
          else acc.email.data
        | none => acc.email.data
    { acc with email := ⟨email⟩ }
  else if containsS phoneStr li.icon then
    let parts := (splitChar ',' text.data).map pyStrip
    { acc with phone_numbers := acc.phone_numbers ++ parts.filterMap (fun part =>
        match findRunP phoneClass part with
        | some run =>
          let r := pyStrip run
          if 8 ≤ r.length then some (⟨r⟩ : String) else none
        | none => none) }
  else if containsS globeStr li.icon || li.href.isSome then
    match li.href with
    | some h => if startsL httpStr.data h.data then { acc with website := h } else acc
    | none => acc
  else acc

/-- `parse_registrar_info_ul` (`app/scraper/parser.py`). -/
def parse_registrar_info_ul (ul : Option (List RegLi)) : RegInfo :=
  match ul with
  | none => {}
  | some lis => lis.foldl regLiStep {}

/-- One `div` inside the contact card, as queried by
`_extract_company_contacts`. -/
structure ContactDiv where
  hasUl : Bool := false
  hasStrong : Bool := false
  text : String := ""
deriving DecidableEq, Repr

/-- The "Contact Details" card. -/
structure ContactCard where
  strongText : Option String := none
  divs : List ContactDiv := []
  regUl : Option (List RegLi) := none
deriving DecidableEq, Repr

structure CompanyContact where
  name : String
  address : String
  phone : String
  email : String
  website : String
deriving DecidableEq, Repr

def spaceAddressStr : String := " Address"
def addressStr : String := "Address"
def commaSpaceStr : String := ", "

/-- `_extract_company_contacts` (`app/scraper/chittorgarh.py`): name from
the first `strong`, address from short plain `div`s, contact details from
the `ul.registrar-info`; at most one contact record. -/
def _extract_company_contacts (card : Option ContactCard) : List CompanyContact :=
  match card with
  | none => []
  | some c =>
    let name : String :=
      match c.strongText with
      | some st =>
        ⟨pyStrip (removeSub addressStr.data
          (removeSub spaceAddressStr.data (cleanL st.data)))⟩
      | none => ""
    let addrParts := c.divs.filterMap (fun d =>
      if d.hasUl || d.hasStrong then none
      else
        let t := clean_text d.text
        if t.data ≠ [] && 2 < t.length && t.length < 150 &&
            !(containsS atStr t) && !(containsS httpStr (⟨lowerL t.data⟩ : String)) &&
            t ≠ name then some t
        else none)
    let address := String.intercalate commaSpaceStr addrParts
    let info := parse_registrar_info_ul c.regUl
    let phone := String.intercalate commaSpaceStr info.phone_numbers
    if name.data ≠ [] || address.data ≠ [] || info.email.data ≠ [] ||
        phone.data ≠ [] then
      [⟨name, address, phone, info.email, info.website⟩]
    else []

structure RhpInsight where
  tittle : String
  description : String
  impact : Nat
deriving DecidableEq, Repr

def dotsStr : String := "..."

/-- `_extract_rhp_insights` (`app/scraper/chittorgarh.py`): every
`li`/`div`/`p` text of the insights section longer than 20 characters,
with the title truncated to 50 characters. -/
def _extract_rhp_insights (sec : Option (List String)) : List RhpInsight :=
  match sec with
  | none => []
  | some items =>
    items.filterMap (fun item =>
      let text := clean_text item
      if text.data ≠ [] && 20 < text.length then
        some ⟨if 50 < text.length then (⟨text.data.take 50⟩ : String) ++ dotsStr
              else text,
              text, 0⟩
      else none)

/-- A schema.org question/answer pair as resolved by methods 1 and 3 of
`extract_faqs`: the text of the question element and of the answer
element, when found. -/
structure SchemaAcc where
  q : Option String := none
  a : Option String := none
deriving DecidableEq, Repr

/-- An accordion item inside a located FAQ section (method 2): the first
heading-like element's text, the `accordion-body`-classed element's text,
and the text of the element `question_elem.find_next(["p", "div"])`
would return. -/
structure Acc2 where
  qElem : Option String := none
  aClassElem : Option String := none
  qNext : Option String := none
deriving DecidableEq, Repr

/-- A heading-like element of the FAQ section with the text of its
`find_next(["p", "div", "li"])` element. -/
structure Hd where
  text : String := ""
  next : Option String := none
deriving DecidableEq, Repr

structure FaqSec where
  accItems : List Acc2 := []
  headings : List Hd := []
deriving DecidableEq, Repr

/-- One extracted FAQ; `plural` records whether the Python dict used the
key `"answers"` (methods 1-3 accordion paths) or `"answer"` (the
heading fallback). -/
structure Faq where
  question : String
  answerText : String
  plural : Bool
deriving DecidableEq, Repr

/-- The filter of methods 1 and 2: nonempty question and answer, and the
question contains `?` or is longer than 10 characters. -/
def faqKeep (q a : String) : Bool :=
  q.data ≠ [] && a.data ≠ [] && (containsS qmStr q || 10 < q.length)

def faqMethod1 (items : List SchemaAcc) : List Faq :=
  items.filterMap (fun it =>
    match it.q, it.a with
    | some q0, some a0 =>
      let q := clean_text q0
      let a := clean_text a0
      if faqKeep q a then some ⟨q, a, true⟩ else none
    | _, _ => none)

/-- Method 2's accordion loop.  When the item has no `accordion-body`
element, Python evaluates `question_elem.find_next(...)` which raises
`AttributeError` if `question_elem` is `None`. -/
def faqMethod2Acc (items : List Acc2) : Except Unit (List Faq) :=
  items.foldlM (fun acc it => do
    let answerElem ←
      match it.aClassElem with
      | some a => Except.ok (some a)
      | none =>
        match it.qElem with
        | none => Except.error ()
        | some _ => Except.ok it.qNext
    match it.qElem, answerElem with
    | some q0, some a0 =>
      let q := clean_text q0
      let a := clean_text a0
      if faqKeep q a then pure (acc ++ [⟨q, a, true⟩]) else pure acc
    | _, _ => pure acc) []

/-- Method 2's heading fallback (note the singular `"answer"` key). -/
def faqMethod2Hd (hds : List Hd) : List Faq :=
  hds.filterMap (fun h =>
    let question := clean_text h.text
    if containsS qmStr question || 10 < question.length then
      let answer := (h.next.map clean_text).getD ""
      if answer.data ≠ [] then some ⟨question, answer, false⟩ else none
    else none)

def faqMethod3 (items : List SchemaAcc) : List Faq :=
  items.filterMap (fun it =>
    match it.q, it.a with
    | some q0, some a0 =>
      let q := clean_text q0
      let a := clean_text a0
      if q.data ≠ [] && a.data ≠ [] then some ⟨q, a, true⟩ else none
    | _, _ => none)

/-- `extract_faqs` (`app/scraper/parser.py`): schema.org accordion items,
then the located FAQ section (its accordion items, then its headings),
then bare schema.org questions. -/
def extract_faqs (m1 : List SchemaAcc) (sec : Option FaqSec)
    (m3 : List SchemaAcc) : Except Unit (List Faq) := do
  let f1 := faqMethod1 m1
  if f1 ≠ [] then pure f1
  else
    let f2 ←
      match sec with
      | none => Except.ok []
      | some fs => do
        let fa ← faqMethod2Acc fs.accItems
        if fa ≠ [] then pure fa else pure (faqMethod2Hd fs.headings)
    if f2 ≠ [] then pure f2 else pure (faqMethod3 m3)

/-! ## NCD extractors (`app/scraper/ncd.py`) -/

def bseStr : String := "BSE"
def nseStr : String := "NSE"

/-- Separator `[,&]` of the exchanges split. -/
def sepExchAt (cs : Chars) : Option Nat :=
  match cs with
  | c :: _ => if c = ',' || c = '&' then some 1 else none
  | [] => none

/-- `_extract_exchanges` (`app/scraper/ncd.py`): split on `[,&]`,
normalize BSE/NSE mentions, keep other nonempty parts not yet seen, then
deduplicate keeping first occurrences. -/
def ncd_extract_exchanges (exchangeText : Option String) : List String :=
  let build :=
    match exchangeText with
    | none => []
    | some v =>
      if v.data = [] then []
      else
        (splitBy sepExchAt v.data).foldl (fun acc part =>
          let c := cleanL part
          if c ≠ [] && containsL bseStr.data (upperL c) then acc ++ [bseStr]
          else if c ≠ [] && containsL nseStr.data (upperL c) then acc ++ [nseStr]
          else if c ≠ [] && !(acc.contains (⟨c⟩ : String)) then acc ++ [(⟨c⟩ : String)]
          else acc) []
  build.foldl dedupAppend []

/-- The "Company Promoters" card of the NCD page: the text of the `div`
following an `h2` containing "Promoter" (when both exist), and the raw
texts of the card's `div`s for the fallback scan. -/
structure NcdPromCard where
  h2NextDiv : Option String := none
  divTexts : List String := []
deriving DecidableEq, Repr

def phraseSpStr : String := " are the company promoters"
def andSpStr : String := " and "
def promoterLowStr : String := "promoter"

/-- `_extract_promoters` (`app/scraper/ncd.py`): the promoter text from
the locators, else from the card; then the sentence-suffix removal and
conjunction/comma split. -/
def ncd_extract_promoters (promoterText : Option String)
    (card : Option NcdPromCard) : List String :=
  let fromCard : Option String :=
    match card with
    | none => none
    | some cd =>
      match cd.h2NextDiv with
      | some d => some (clean_text d)
      | none =>
        (cd.divTexts.find? (fun t =>
          containsL phraseSpStr.data t.data ||
            (containsL andSpStr.data t.data &&
             containsL promoterLowStr.data (lowerL t.data)))).map clean_text
  let pt :=
    match promoterText with
    | some v => if v.data = [] then fromCard else some v
    | none => fromCard
  match pt with
  | some v => if v.data = [] then [] else ncdPromotersFromText v
  | none => []

/-- The `#couponTable`: `thead` `th` texts and `tbody` rows (`td` texts),
all raw. -/
structure CouponTable where
  headThs : List String := []
  bodyRows : List (List String) := []
deriving DecidableEq, Repr

structure CouponSeries where
  series_name : String
  frequency_of_interest_payment : String
  nature : String
  tenor : String
  coupon_percent_pa : ℚ
  effective_yield_percent_pa : ℚ
  amount_on_maturity : ℚ
deriving DecidableEq, Repr

structure CouponRows where
  freq : Option (List String) := none
  nature : Option (List String) := none
  tenor : Option (List String) := none
  coupon : Option (List String) := none
  eff : Option (List String) := none
  amt : Option (List String) := none
deriving DecidableEq, Repr

def frequencyKw : String := "frequency"
def interestKw : String := "interest"
def natureKw : String := "nature"
def tenorKw : String := "tenor"
def couponKw : String := "coupon"
def effectiveKw : String := "effective"
def yieldKw : String := "yield"
def maturityKw : String := "maturity"
def seriesCapStr : String := "Series"
def seriesSpStr : String := "Series "
def naStr : String := "NA"
def zeroStr : String := "0"

/-- The row-classification loop of `_extract_coupon_series`. -/
def couponRowStep (acc : CouponRows) (cells : List String) : CouponRows :=
  match cells with
  | [] => acc
  | c0 :: rest =>
    let label := lowerS (clean_text c0)
    let vals := rest.map clean_text
    if containsS frequencyKw label && containsS interestKw label then
      { acc with freq := some vals }
    else if containsS natureKw label then { acc with nature := some vals }
    else if containsS tenorKw label then { acc with tenor := some vals }
    else if containsS couponKw label && !(containsS effectiveKw label) then
      { acc with coupon := some vals }
    else if containsS effectiveKw label && containsS yieldKw label then
      { acc with eff := some vals }
    else if containsS amountStr label && containsS maturityKw label then
      { acc with amt := some vals }
    else acc

/-- `row_map.get(typ, {}).get(col, "")`. -/
def couponCell (l : Option (List String)) (idx : Nat) : String :=
  match l with
  | none => ""
  | some vs => (vs.get? idx).getD ""

/-- `_extract_coupon_series` (`app/scraper/ncd.py`): series named by the
non-`#` header columns, values from the keyword-classified rows; `NA`
coupons and yields become 0, missing numbers become 0. -/
def ncd_extract_coupon_series (table : Option CouponTable) : List CouponSeries :=
  match table with
  | none => []
  | some t =>
    let headers := t.headThs.map clean_text
    let seriesCols := (headers.enum.filterMap (fun pr =>
      if 0 < pr.1 && pr.2.data ≠ [] &&
          (!(containsS hashStr pr.2) || containsS seriesCapStr pr.2) then
        some pr.2
      else none))
    let seriesCols :=
      if seriesCols = [] then
        (List.range (headers.length - 1)).map (fun i => seriesSpStr ++ toString (i + 1))
      else seriesCols
    let rows := t.bodyRows.foldl couponRowStep {}
    seriesCols.enum.map (fun pr =>
      let idx := pr.1
      let cou := pyOrStr (couponCell rows.coupon idx) zeroStr
      let coup : ℚ := if upperS cou = naStr then 0 else (parse_float cou).getD 0
      let eff := pyOrStr (couponCell rows.eff idx) zeroStr
      let effY : ℚ := if upperS eff = naStr then 0 else (parse_float eff).getD 0
      let amt := pyOrStr (couponCell rows.amt idx) zeroStr
      ⟨pr.2, couponCell rows.freq idx, couponCell rows.nature idx,
       couponCell rows.tenor idx, coup, effY, (parse_float amt).getD 0⟩)

structure RatingRec where
  rating_agency : String
  ncd_rating : String
  outlook : String
  safety_degree : String
  risk_degree : String
deriving DecidableEq, Repr

def ratingAgencyKey : String := "Rating Agency"
def ratingAgencyKey2 : String := "rating_agency"
def ncdRatingKey : String := "NCD Rating"
def ncdRatingKey2 : String := "ncd_rating"
def outlookKey : String := "Outlook"
def outlookKey2 : String := "outlook"
def safetyKey : String := "Safety Degree"
def safetyKey2 : String := "safety_degree"
def riskKey : String := "Risk Degree"
def riskKey2 : String := "risk_degree"

/-- `row.get(k1, row.get(k2, "")) or (cells[i] raw if long enough else "")`
for the ratings table. -/
def ratingField (headers cells : List String) (k1 k2 : String) (i : Nat) : String :=
  let fromDict :=
    match dictZipGet headers (cells.map clean_text) k1 with
    | some v => v
    | none => (dictZipGet headers (cells.map clean_text) k2).getD ""
  pyOrStr fromDict ((cells.get? i).getD "")

/-- `_extract_ratings` (`app/scraper/ncd.py`): rows of `#ncd_rating` with
at least two cells; fields by header name with positional raw fallbacks,
cleaned at assembly; rows kept when agency or rating is nonempty before
cleaning. -/
def ncd_extract_ratings (table : Option RawTable) : List RatingRec :=
  match table with
  | none => []
  | some t =>
    if t.bodyRows = [] then []
    else
      let headers := t.firstRowThs.map clean_text
      t.bodyRows.filterMap (fun cells =>
        if cells.length < 2 then none
        else
          let agency := ratingField headers cells ratingAgencyKey ratingAgencyKey2 1
          let ncd := ratingField headers cells ncdRatingKey ncdRatingKey2 2
          if agency.data ≠ [] || ncd.data ≠ [] then
            some ⟨clean_text agency, clean_text ncd,
              clean_text (ratingField headers cells outlookKey outlookKey2 3),
              clean_text (ratingField headers cells safetyKey safetyKey2 4),
              clean_text (ratingField headers cells riskKey riskKey2 5)⟩
          else none)

def objsPhraseStr : String := "Objects of the Issue"

/-- `_extract_objects_of_issue` (`app/scraper/ncd.py`): for the first
heading containing "Objects of the Issue", walk the candidate `ul`s found
on the parent chain and return the first whose cleaned items longer than
15 characters number between 1 and 20. -/
def ncd_extract_objects_of_issue
    (headings : List (String × List (List String))) : List String :=
  (firstSome headings (fun pr =>
    if containsS objsPhraseStr pr.1 then
      firstSome pr.2 (fun ul =>
        let items := (ul.map clean_text).filter (fun t => 15 < t.length)
        if 1 ≤ items.length && items.length ≤ 20 then some items else none)
    else none)).getD []

/-- One `li` of the NCD lead-manager ordered list. -/
structure OlLi where
  aText : Option String := none
  liText : String := ""
deriving DecidableEq, Repr

/-- The "NCD Lead Manager(s)" card. -/
structure NcdLmCard where
  olItems : Option (List OlLi) := none
  leadLinkTexts : List String := []
deriving DecidableEq, Repr

/-- `_extract_lead_managers` (`app/scraper/ncd.py`): the card's ordered
list (link text before item text, parenthesis-trimmed, deduplicated), or
the first acceptable lead-manager link. -/
def ncd_extract_lead_managers (card : Option NcdLmCard) : List String :=
  match card with
  | none => []
  | some cd =>
    match cd.olItems with
    | some lis =>
      lis.foldl (fun acc li =>
        let text :=
          match li.aText with
          | some a => clean_text a
          | none => clean_text li.liText
        if text.data ≠ [] && !(excludeLm.any (fun k => containsS k text)) &&
            3 < text.length then
          let text :=
            if containsS parenStr text then
              (⟨pyStrip (splitBefore parenStr.data text.data)⟩ : String)
            else text
          if text.data ≠ [] && !(acc.contains text) then acc ++ [text] else acc
        else acc) []
    | none =>
      match cd.leadLinkTexts.find? (fun l =>
        let text := clean_text l
        text.data ≠ [] && !(excludeLm.any (fun k => containsS k text)) &&
          3 < text.length) with
      | some l => [clean_text l]
      | none => []

structure DocLink where
  title : String
  url : String
deriving DecidableEq, Repr

def excludeDoc : List String :=
  [r"Upcoming IPOs", r"Report List", r"Stock Broker", r"Stock Market",
   r"Other Report", r"Mainboard RHP", r"SME RHP"]
def rhpKw : String := "rhp"
def drhpKw : String := "drhp"
def prospectusKw : String := "prospectus"
def documentKw : String := "document"
def sebiStr : String := "sebi.gov.in"
def chittorgarhBase : String := "https://www.chittorgarh.com"

/-- The `find_all` href filter of `_extract_documents`. -/
def docHrefOk (h : String) : Bool :=
  let hl : String := ⟨lowerL h.data⟩
  containsS rhpKw hl || containsS drhpKw hl || containsS prospectusKw hl ||
    containsS documentKw hl || containsS sebiStr hl

/-- `_extract_documents` (`app/scraper/ncd.py`): anchors whose href looks
like a document, excluding navigation titles, kept when the href is a
SEBI link or contains a prospectus keyword. -/
def ncd_extract_documents (links : List (String × String)) : List DocLink :=
  links.filterMap (fun pr =>
    let title := clean_text pr.1
    let url := pr.2
    if !(docHrefOk url) then none
    else if excludeDoc.any (fun k => containsS k title) then none
    else if title.data ≠ [] && url.data ≠ [] then
      let ul : String := ⟨lowerL url.data⟩
      if containsS sebiStr url || containsS prospectusKw ul || containsS rhpKw ul ||
          containsS drhpKw ul then
        some ⟨title, if startsL httpStr.data url.data then url
                     else chittorgarhBase ++ url⟩
      else none
    else none)

structure NcdQA where
  question : String
  answer : String
deriving DecidableEq, Repr

/-- `_extract_faqs` (`app/scraper/ncd.py`): wraps `extract_faqs`, reading
`faq.get("answers", "") or faq.get("answer", "")`. -/
def ncd_extract_faqs (m1 : List SchemaAcc) (sec : Option FaqSec)
    (m3 : List SchemaAcc) : Except Unit (List NcdQA) := do
  let fs ← extract_faqs m1 sec m3
  pure (fs.map (fun f => ⟨f.question, f.answerText⟩))

/-! ## Assemblers: the list-valued fields of the output records

`_scrape_ipo_from_soup` and `_scrape_ncd_from_soup` build the output
dicts; the structures below carry exactly their list-valued entries, each
the result of the corresponding extractor.  The field types being `List`
is the translation of the fact that every one of those extractors returns
a Python list on every path (never `None`). -/

structure IpoInputs where
  summary : Option (List SBlock) := none
  aboutFallback : Option Sec := none
  strengthsFallback : Option Sec := none
  weakSec : Option Sec := none
  oppSec : Option Sec := none
  threatSec : Option Sec := none
  prodSec : Option Sec := none
  svcSec : Option (Sec × Option String) := none
  promoCandTexts : List String := []
  promoSec : Option PromSec := none
  promoTableValue : Option String := none
  lmOlItems : Option (List String) := none
  lmReviewLinkTexts : List String := []
  lmTableValue : Option String := none
  objTable : Option RawTable := none
  finTable : Option RawTable := none
  peersTable : Option RawTable := none
  contactCard : Option ContactCard := none
  resCard : Option (Option (List (List String))) := none
  rhpSec : Option (List String) := none
  faqM1 : List SchemaAcc := []
  faqSec : Option FaqSec := none
  faqM3 : List SchemaAcc := []

structure IpoLists where
  about_company : List String
  strengths : List String
  weaknesses : List String
  opportunities : List String
  threats : List String
  products : List String
  services : List String
  promoters : List String
  lead_managers : List String
  objectives : List Objective
  financials : List FinPeriod
  peers : List Peer
  company_contacts : List CompanyContact
  reservations : List ResRec
  rhp_insights : List RhpInsight
  faqs : List Faq
deriving DecidableEq, Repr

/-- The list-valued fields of the dict built by `_scrape_ipo_from_soup`
(`app/scraper/chittorgarh.py` lines 267-334); `Except.error` models the
extraction exceptions (`extract_faqs` crash, `_extract_financials`
IndexError) that abort the whole assembly. -/
def assembleIpoLists (ii : IpoInputs) : Except Unit IpoLists :=
  match _extract_financials ii.finTable with
  | Except.error e => Except.error e
  | Except.ok fins =>
    match extract_faqs ii.faqM1 ii.faqSec ii.faqM3 with
    | Except.error e => Except.error e
    | Except.ok faqs =>
      Except.ok
      { about_company := _extract_about_company ii.summary ii.aboutFallback
        strengths := _extract_strengths ii.summary ii.strengthsFallback
        weaknesses := swotExtract ii.weakSec
        opportunities := swotExtract ii.oppSec
        threats := swotExtract ii.threatSec
        products := _extract_products ii.prodSec ii.summary
        services := _extract_services ii.summary ii.svcSec
        promoters := _extract_promoters ii.promoCandTexts ii.promoSec
          ii.promoTableValue
        lead_managers := _extract_lead_managers ii.lmOlItems ii.lmReviewLinkTexts
          ii.lmTableValue
        objectives := _extract_objectives ii.objTable
        financials := fins
        peers := _extract_peers ii.peersTable
        company_contacts := _extract_company_contacts ii.contactCard
        reservations := _extract_reservations ii.resCard
        rhp_insights := _extract_rhp_insights ii.rhpSec
        faqs := faqs }

structure NcdInputs where
  exchangeText : Option String := none
  promoterText : Option String := none
  promoCard : Option NcdPromCard := none
  couponTable : Option CouponTable := none
  ratingTable : Option RawTable := none
  objHeadings : List (String × List (List String)) := []
  lmCard : Option NcdLmCard := none
  docLinks : List (String × String) := []
  faqM1 : List SchemaAcc := []
  faqSec : Option FaqSec := none
  faqM3 : List SchemaAcc := []

structure NcdLists where
  exchanges : List String
  promoters : List String
  coupon_series : List CouponSeries
  ratings : List RatingRec
  objects_of_issue : List String
  lead_managers : List String
  documents : List DocLink
  faq : List NcdQA
  news : List String
deriving DecidableEq, Repr

/-- The list-valued fields of the dict built by `_scrape_ncd_from_soup`
(`app/scraper/ncd.py` lines 184-219); `news` is the literal `[]`. -/
def assembleNcdLists (ni : NcdInputs) : Except Unit NcdLists :=
  match ncd_extract_faqs ni.faqM1 ni.faqSec ni.faqM3 with
  | Except.error e => Except.error e
  | Except.ok faq =>
    Except.ok
    { exchanges := ncd_extract_exchanges ni.exchangeText
      promoters := ncd_extract_promoters ni.promoterText ni.promoCard
      coupon_series := ncd_extract_coupon_series ni.couponTable
      ratings := ncd_extract_ratings ni.ratingTable
      objects_of_issue := ncd_extract_objects_of_issue ni.objHeadings
      lead_managers := ncd_extract_lead_managers ni.lmCard
      documents := ncd_extract_documents ni.docLinks
      faq := faq
      news := [] }

/-! ## Lemmas: the canonical date format accepted by `parse_date` (C4) -/

lemma all_takeWhile (p : Char → Bool) (l : Chars) :
    ∀ c ∈ l.takeWhile p, p c := by
  induction l with
  | nil => intro c hc; simp [List.takeWhile] at hc
  | cons a t ih =>
    intro c hc
    rw [List.takeWhile_cons] at hc
    by_cases h : p a
    · rw [if_pos h] at hc
      rcases List.mem_cons.mp hc with rfl | hct
      · exact h
      · exact ih c hct
    · rw [if_neg h] at hc; simp at hc

lemma matchNameAux_decomp :
    ∀ (names : List Chars) (i : Nat) (cs : Chars) (j : Nat) (r : Chars),
      matchNameAux names i cs = some (j, r) →
      ∃ pre, cs = pre ++ r ∧ lowerL pre ∈ names := by
  intro names
  induction names with
  | nil => intro i cs j r h; simp [matchNameAux] at h
  | cons n rest ih =>
    intro i cs j r h
    unfold matchNameAux at h
    split at h
    case isTrue hp =>
      simp only [Option.some.injEq, Prod.mk.injEq] at h
      obtain ⟨-, hr⟩ := h
      subst hr
      refine ⟨cs.take n.length, ?_, ?_⟩
      · exact (List.take_append_drop n.length cs).symm
      · rw [hp]; exact List.mem_cons_self n rest
    case isFalse _ =>
      obtain ⟨pre, h1, h2⟩ := ih (i + 1) cs j r h
      exact ⟨pre, h1, List.mem_cons_of_mem n h2⟩

lemma matchWs1_decomp (cs r : Chars) (h : matchWs1 cs = some r) :
    ∃ w, cs = w ++ r ∧ w ≠ [] ∧ ∀ c ∈ w, pySpace c := by
  unfold matchWs1 at h
  split at h
  case isTrue => simp at h
  case isFalse hne =>
    simp only [Option.some.injEq] at h
    subst h
    exact ⟨cs.takeWhile pySpace, (List.takeWhile_append_dropWhile pySpace cs).symm,
      hne, all_takeWhile pySpace cs⟩

lemma expectComma_decomp (cs r : Chars) (h : expectComma cs = some r) :
    cs = ',' :: r := by
  cases cs with
  | nil => simp [expectComma] at h
  | cons c rest =>
    simp only [expectComma] at h
    split at h
    case isTrue hc =>
      simp only [Option.some.injEq] at h
      rw [hc, h]
    case isFalse => simp at h

lemma matchTail_decomp (cs : Chars) (y : Nat) (h : matchTail cs = some y) :
    ∃ w3 yr, cs = ',' :: (w3 ++ yr) ∧ w3 ≠ [] ∧ (∀ c ∈ w3, pySpace c) ∧
      yr.length = 4 ∧ ∀ c ∈ yr, c.isDigit := by
  cases cs with
  | nil => simp [matchTail] at h
  | cons c rest =>
    simp only [matchTail] at h
    split at h
    case isFalse => simp at h
    case isTrue hc =>
      cases hw : matchWs1 rest with
      | none => simp [hw] at h
      | some r2 =>
        simp only [hw] at h
        split at h
        case isFalse => simp at h
        case isTrue hcond =>
          obtain ⟨w, hw1, hw2, hw3⟩ := matchWs1_decomp rest r2 hw
          rw [Bool.and_eq_true] at hcond
          have hlen : r2.length = 4 := by
            have := hcond.1
            simpa using this
          have hdig : ∀ c2 ∈ r2, c2.isDigit := List.all_eq_true.mp hcond.2
          subst hc
          exact ⟨w, r2, by rw [hw1], hw2, hw3, hlen, hdig⟩

lemma matchDayTail_decomp (cs : Chars) (d y : Nat)
    (h : matchDayTail cs = some (d, y)) :
    ∃ dd rest, cs = dd ++ rest ∧ (dd.length = 1 ∨ dd.length = 2) ∧
      (∀ c ∈ dd, c.isDigit) ∧ matchTail rest = some y := by
  cases cs with
  | nil => simp [matchDayTail] at h
  | cons a t =>
    cases t with
    | nil =>
      simp only [matchDayTail] at h
      split at h
      · simp [show matchTail ([] : Chars) = none from rfl] at h
      · simp at h
    | cons b r =>
      simp only [matchDayTail] at h
      split at h
      case isTrue hab =>
        rw [Bool.and_eq_true, Bool.and_eq_true] at hab
        have ha : a.isDigit := hab.1.1
        have hb : b.isDigit := hab.1.2
        cases hmt : matchTail r with
        | some y2 =>
          simp only [hmt, Option.some.injEq, Prod.mk.injEq] at h
          obtain ⟨-, hy⟩ := h
          subst hy
          refine ⟨[a, b], r, rfl, Or.inr rfl, ?_, hmt⟩
          intro c hc
          rcases List.mem_cons.mp hc with rfl | hc2
          · exact ha
          · rcases List.mem_cons.mp hc2 with rfl | hc3
            · exact hb
            · simp at hc3
        | none =>
          simp only [hmt] at h
          split at h
          case isTrue hone =>
            cases hmt2 : matchTail (b :: r) with
            | some y2 =>
              simp only [hmt2, Option.map_some', Option.some.injEq,
                Prod.mk.injEq] at h
              obtain ⟨-, hy⟩ := h
              subst hy
              refine ⟨[a], b :: r, rfl, Or.inl rfl, ?_, hmt2⟩
              intro c hc
              rcases List.mem_cons.mp hc with rfl | hc2
              · exact ha
              · simp at hc2
            | none => simp [hmt2] at h
          case isFalse => simp at h
      case isFalse =>
        split at h
        case isTrue hone =>
          rw [oneDigitDayOk, Bool.and_eq_true] at hone
          have ha : a.isDigit := hone.1
          cases hmt2 : matchTail (b :: r) with
          | some y2 =>
            simp only [hmt2, Option.map_some', Option.some.injEq,
              Prod.mk.injEq] at h
            obtain ⟨-, hy⟩ := h
            subst hy
            refine ⟨[a], b :: r, rfl, Or.inl rfl, ?_, hmt2⟩
            intro c hc
            rcases List.mem_cons.mp hc with rfl | hc2
            · exact ha
            · simp at hc2
          | none => simp [hmt2] at h
        case isFalse => simp at h

/-- The canonical textual date format of the specification: three-letter
weekday, comma, whitespace, three-letter month, whitespace, one-or-two
digit day, comma, whitespace, four-digit year (name matching is
case-insensitive, as in `strptime`). -/
def canonicalDecomp (v : Chars) : Prop :=
  ∃ wd w1 mo w2 dd w3 yr,
    v = wd ++ ',' :: (w1 ++ (mo ++ (w2 ++ (dd ++ ',' :: (w3 ++ yr))))) ∧
    wd.length = 3 ∧ lowerL wd ∈ weekdayAbbrs ∧
    w1 ≠ [] ∧ (∀ c ∈ w1, pySpace c) ∧
    mo.length = 3 ∧ lowerL mo ∈ monthAbbrs ∧
    w2 ≠ [] ∧ (∀ c ∈ w2, pySpace c) ∧
    (dd.length = 1 ∨ dd.length = 2) ∧ (∀ c ∈ dd, c.isDigit) ∧
    w3 ≠ [] ∧ (∀ c ∈ w3, pySpace c) ∧
    yr.length = 4 ∧ ∀ c ∈ yr, c.isDigit

lemma matchDateNames_decomp (cs : Chars) (y m d : Nat)
    (h : matchDateNames weekdayAbbrs monthAbbrs cs = some (y, m, d)) :
    canonicalDecomp cs := by
  unfold matchDateNames at h
  cases h1 : matchNameAux weekdayAbbrs 0 cs with
  | none => simp [h1] at h
  | some pr1 =>
    obtain ⟨j1, r1⟩ := pr1
    simp only [h1] at h
    cases hc : expectComma r1 with
    | none => simp [hc] at h
    | some r2 =>
      simp only [hc] at h
      cases h2 : matchWs1 r2 with
      | none => simp [h2] at h
      | some r3 =>
        simp only [h2] at h
        cases h3 : matchNameAux monthAbbrs 0 r3 with
        | none => simp [h3] at h
        | some pr2 =>
          obtain ⟨m2, r4⟩ := pr2
          simp only [h3] at h
          cases h4 : matchWs1 r4 with
          | none => simp [h4] at h
          | some r5 =>
            simp only [h4] at h
            cases h5 : matchDayTail r5 with
            | none => simp [h5] at h
            | some pr3 =>
              obtain ⟨d2, y2⟩ := pr3
              obtain ⟨wd, hwd1, hwd2⟩ := matchNameAux_decomp _ _ _ _ _ h1
              have hcomma := expectComma_decomp _ _ hc
              obtain ⟨w1, hw11, hw12, hw13⟩ := matchWs1_decomp _ _ h2
              obtain ⟨mo, hmo1, hmo2⟩ := matchNameAux_decomp _ _ _ _ _ h3
              obtain ⟨w2, hw21, hw22, hw23⟩ := matchWs1_decomp _ _ h4
              obtain ⟨dd, rest, hdd1, hdd2, hdd3, hdd4⟩ :=
                matchDayTail_decomp _ _ _ h5
              obtain ⟨w3, yr, ht1, ht2, ht3, ht4, ht5⟩ := matchTail_decomp _ _ hdd4
              have hwd3 : wd.length = 3 := by
                have hall : ∀ n ∈ weekdayAbbrs, n.length = 3 := by decide
                have := hall _ hwd2
                rwa [lowerL, List.length_map] at this
              have hmo3 : mo.length = 3 := by
                have hall : ∀ n ∈ monthAbbrs, n.length = 3 := by decide
                have := hall _ hmo2
                rwa [lowerL, List.length_map] at this
              refine ⟨wd, w1, mo, w2, dd, w3, yr, ?_, hwd3, hwd2, hw12, hw13,
                hmo3, hmo2, hw22, hw23, hdd2, hdd3, ht2, ht3, ht4, ht5⟩
              rw [hwd1, hcomma, hw11, hmo1, hw21, hdd1, ht1]

def c4ex1 : String := "Wed, Jan 28, 2026"
def c4ex2 : String := "Wed, Jan 28, 2026T"
def c4neg1 : String := "20 Jan 2026"
def c4neg2 : String := "Wednesday, January 28, 2026"

/-- C4: `parse_date` maps both `"Wed, Jan 28, 2026"` and
`"Wed, Jan 28, 2026T"` (the single trailing marker is stripped before
parsing) to the calendar date 2026-01-28; it returns `None` on the
non-canonical formats named by the specification; and whenever it accepts
a string, that string (after the marker strip and whitespace trim) is in
the canonical three-letter-weekday, comma, three-letter-month, day,
comma, four-digit-year format. -/
theorem C4_parse_date_spec :
    parse_date c4ex1 = some ⟨2026, 1, 28⟩ ∧
    parse_date c4ex2 = some ⟨2026, 1, 28⟩ ∧
    parse_date c4neg1 = none ∧
    parse_date c4neg2 = none ∧
    ∀ s d, parse_date s = some d → canonicalDecomp (pyStrip (stripTmark s.data)) := by
  refine ⟨by decide, by decide, by decide, by decide, ?_⟩
  intro s d h
  unfold parse_date at h
  split at h
  case isTrue => simp at h
  case isFalse =>
    cases hm : matchDateNames weekdayAbbrs monthAbbrs (pyStrip (stripTmark s.data)) with
    | none => rw [hm] at h; simp at h
    | some tr =>
      obtain ⟨y, m, dd⟩ := tr
      exact matchDateNames_decomp _ _ _ _ hm

/-- C4 witness: the accepted input `"Wed, Jan 28, 2026"` is in the
canonical format. -/
theorem C4_witness : canonicalDecomp (pyStrip (stripTmark c4ex1.data)) :=
  C4_parse_date_spec.2.2.2.2 c4ex1 ⟨2026, 1, 28⟩ (by decide)

/-! ## C5: `parse_float` -/

lemma scanFirstNumber_isSome (cs : Chars) (h : cs.any Char.isDigit = true) :
    (scanFirstNumber cs).isSome := by
  induction cs with
  | nil => simp at h
  | cons c rest ih =>
    cases hc : c.isDigit with
    | true => simp [scanFirstNumber, hc]
    | false =>
      simp only [scanFirstNumber, hc, Bool.false_eq_true, if_false]
      exact ih (by simpa [hc] using h)

lemma scanFirstNumber_eq_none (cs : Chars) (h : cs.any Char.isDigit = false) :
    scanFirstNumber cs = none := by
  induction cs with
  | nil => rfl
  | cons c rest ih =>
    rw [List.any_cons, Bool.or_eq_false_iff] at h
    simp only [scanFirstNumber, h.1, Bool.false_eq_true, if_false]
    exact ih h.2

lemma removeCommas_any_digit (cs : Chars) :
    (removeCommas cs).any Char.isDigit = cs.any Char.isDigit := by
  induction cs with
  | nil => rfl
  | cons c rest ih =>
    rw [List.any_cons]
    by_cases hc : c = ','
    · subst hc
      have h1 : removeCommas (',' :: rest) = removeCommas rest := by
        simp [removeCommas, List.filter_cons]
      rw [h1, ih]
      simp [show (',' : Char).isDigit = false from rfl]
    · have h1 : removeCommas (c :: rest) = c :: removeCommas rest := by
        simp [removeCommas, List.filter_cons, hc]
      rw [h1, List.any_cons, ih]

def c5ex1 : String := "₹2,500 Cr"
def c5ex2 : String := "120 Shares"

/-- C5: `parse_float` returns exactly the first numeric substring (after
comma removal) as a number — `"₹2,500 Cr"` gives 2500 and `"120 Shares"`
gives 120 — returns some number for every input containing a digit, and
returns `None` for every empty or digit-free input. -/
theorem C5_parse_float_spec (s : String) :
    parse_float c5ex1 = some 2500 ∧
    parse_float c5ex2 = some 120 ∧
    (s.data.any Char.isDigit = true → ∃ q, parse_float s = some q) ∧
    (s.data.any Char.isDigit = false → parse_float s = none) := by
  refine ⟨by decide, by decide, ?_, ?_⟩
  · intro h
    have hne : s.data ≠ [] := by
      intro he
      rw [he] at h
      simp at h
    unfold parse_float
    rw [if_neg hne]
    exact Option.isSome_iff_exists.mp
      (scanFirstNumber_isSome _ (by rw [removeCommas_any_digit]; exact h))
  · intro h
    unfold parse_float
    split
    · rfl
    · exact scanFirstNumber_eq_none _ (by rw [removeCommas_any_digit]; exact h)

/-- C5 witness: `"₹2,500 Cr"` contains a digit and parses to a number. -/
theorem C5_witness : ∃ q, parse_float c5ex1 = some q :=
  (C5_parse_float_spec c5ex1).2.2.1 (by decide)

/-! ## C6: `_parse_price_band` -/

def listFold1 (f : ℚ → ℚ → ℚ) : List ℚ → Option ℚ
  | [] => none
  | q :: qs => some (qs.foldl f q)

lemma foldl_perm (f : ℚ → ℚ → ℚ)
    (hcomm : ∀ a b, f a b = f b a)
    (hassoc : ∀ a b c, f (f a b) c = f a (f b c)) :
    ∀ {l1 l2 : List ℚ}, l1.Perm l2 → ∀ x, l1.foldl f x = l2.foldl f x := by
  intro l1 l2 hp
  induction hp with
  | nil => intro x; rfl
  | cons a h ih =>
    intro x
    simp only [List.foldl_cons]
    exact ih (f x a)
  | swap a b t =>
    intro x
    simp only [List.foldl_cons]
    rw [hassoc, hcomm b a, ← hassoc]
  | trans h1 h2 ih1 ih2 => intro x; exact (ih1 x).trans (ih2 x)

lemma listFold1_perm (f : ℚ → ℚ → ℚ)
    (hcomm : ∀ a b, f a b = f b a)
    (hassoc : ∀ a b c, f (f a b) c = f a (f b c))
    {l1 l2 : List ℚ} (hp : l1.Perm l2) : listFold1 f l1 = listFold1 f l2 := by
  induction hp with
  | nil => rfl
  | cons a h ih =>
    simp only [listFold1]
    rw [foldl_perm f hcomm hassoc h a]
  | swap a b t =>
    simp only [listFold1, List.foldl_cons]
    rw [hcomm b a]
  | trans h1 h2 ih1 ih2 => exact ih1.trans ih2

def bandOfList : List ℚ → Option ℚ × Option ℚ
  | [] => (none, none)
  | q :: qs => (some (qs.foldl min q), some (qs.foldl max q))

lemma band_eq (s : String) :
    _parse_price_band s = bandOfList (scanNumbers s.data) := by
  unfold _parse_price_band
  split
  case isTrue h => rw [h]; rfl
  case isFalse h =>
    cases hn : scanNumbers s.data with
    | nil => simp [hn, bandOfList]
    | cons q qs => simp [hn, bandOfList]

lemma bandOfList_fold1 (l : List ℚ) :
    bandOfList l = (listFold1 min l, listFold1 max l) := by
  cases l <;> rfl

def c6ex1 : String := "₹21 to ₹23"
def c6ex2 : String := "₹23 to ₹21"

/-- C6: price-band parsing is invariant under the order (indeed any
permutation) of the numbers found in the text — both `"₹21 to ₹23"` and
`"₹23 to ₹21"` give `(21, 23)` — and a text with exactly one number gives
`(value, value)`. -/
theorem C6_price_band_spec (s t : String) (v : ℚ) :
    _parse_price_band c6ex1 = (some 21, some 23) ∧
    _parse_price_band c6ex2 = (some 21, some 23) ∧
    ((scanNumbers s.data).Perm (scanNumbers t.data) →
      _parse_price_band s = _parse_price_band t) ∧
    (scanNumbers s.data = [v] → _parse_price_band s = (some v, some v)) := by
  refine ⟨by decide, by decide, ?_, ?_⟩
  · intro hp
    rw [band_eq s, band_eq t, bandOfList_fold1, bandOfList_fold1,
      listFold1_perm min (fun a b => min_comm a b) (fun a b c => min_assoc a b c) hp,
      listFold1_perm max (fun a b => max_comm a b) (fun a b c => max_assoc a b c) hp]
  · intro hs
    rw [band_eq s, hs]
    rfl

def c6w1 : String := "₹7 kg"
def c6w2 : String := "7 pigs"

/-- C6 witness: two texts with the same single number parse to the same
degenerate band. -/
theorem C6_witness :
    _parse_price_band c6w1 = _parse_price_band c6w2 ∧
    _parse_price_band c6w1 = (some 7, some 7) := by
  have h := C6_price_band_spec c6w1 c6w2 7
  refine ⟨h.2.2.1 ?_, h.2.2.2 (by decide)⟩
  have he : scanNumbers c6w1.data = scanNumbers c6w2.data := by decide
  rw [he]

/-! ## C1: batch scraping -/

/-- C1: batch extraction returns exactly one entry per input URL in input
order; the entry at position `k` is a function of the `k`-th URL alone
(so one URL's failure never disturbs the others); a failing URL yields an
entry carrying that URL and the error message and no record, and a
succeeding URL yields its record with no error. -/
theorem C1_batch_spec (R : Type) (f : String → Except String R)
    (urls : List String) (k : Nat) (u e : String) :
    (scrape_batch f urls).length = urls.length ∧
    (∀ j, (scrape_batch f urls).get? j = (urls.get? j).map (scrapeOne f)) ∧
    (urls.get? k = some u → f u = Except.error e →
      (scrape_batch f urls).get? k = some ⟨u, none, some e⟩) ∧
    (∀ r, urls.get? k = some u → f u = Except.ok r →
      (scrape_batch f urls).get? k = some ⟨u, some r, none⟩) := by
  refine ⟨by simp [scrape_batch], fun j => by simp [scrape_batch], ?_, ?_⟩
  · intro hk hf
    simp only [scrape_batch, List.get?_map, hk, Option.map_some', scrapeOne, hf]
  · intro r hk hf
    simp only [scrape_batch, List.get?_map, hk, Option.map_some', scrapeOne, hf]

def c1urlA : String := "https://www.chittorgarh.com/ipo/acme-ipo/1001/"
def c1urlB : String := "https://www.chittorgarh.com/ipo/bad-ipo/1002/"
def c1urlC : String := "https://www.chittorgarh.com/ipo/coal-ipo/1003/"
def c1urls : List String := [c1urlA, c1urlB, c1urlC]
def c1msg : String := "fetch failed"

def c1scrape (u : String) : Except String String :=
  if u = c1urlB then Except.error c1msg else Except.ok u

/-- C1 witness: a three-URL batch whose second URL fails keeps three
entries in order, the second carrying the error and no record. -/
theorem C1_witness :
    (scrape_batch c1scrape c1urls).length = c1urls.length ∧
    (scrape_batch c1scrape c1urls).get? 1 = some ⟨c1urlB, none, some c1msg⟩ ∧
    (scrape_batch c1scrape c1urls).get? 0 = some ⟨c1urlA, some c1urlA, none⟩ := by
  refine ⟨(C1_batch_spec String c1scrape c1urls 1 c1urlB c1msg).1,
    (C1_batch_spec String c1scrape c1urls 1 c1urlB c1msg).2.2.1 (by decide) (by decide),
    (C1_batch_spec String c1scrape c1urls 0 c1urlA c1msg).2.2.2 c1urlA (by decide)
      (by decide)⟩

/-! ## C2: `extract_number` raises on dot-heavy inputs -/

def c2ex1 : String := "1.2.3"
def c2ex2 : String := "."
def c2ex3 : String := "2,500 Cr"
def c2ex4 : String := "abc"
def c2ex5 : String := ""
def c2faqSec : FaqSec := ⟨[⟨none, none, none⟩], []⟩

/-- C2: `extract_number` does not satisfy the never-raise contract: on
`"1.2.3"` (and on `"."`) the matched `[\d,.]+` run is not a valid float
literal and `float()` raises `ValueError`, while digit-free and empty
inputs correctly give `None` and well-formed numbers parse; `extract_faqs`
can likewise raise (`AttributeError`) on an accordion item with no
heading element and no `accordion-body` element. -/
theorem C2_extract_number_raises :
    extract_number c2ex1 = Except.error () ∧
    extract_number c2ex2 = Except.error () ∧
    extract_number c2ex3 = Except.ok (some 2500) ∧
    extract_number c2ex4 = Except.ok none ∧
    extract_number c2ex5 = Except.ok none ∧
    extract_faqs [] (some c2faqSec) [] = Except.error () := by
  refine ⟨by decide, by decide, by decide, by decide, by decide, by decide⟩

/-! ## C8: reservation categories default to 0 -/

lemma resAccInit_get (k : ResKey) : ResAcc.init.get k = none := by
  cases k <;> rfl

lemma resAccSet_get_ne (acc : ResAcc) (k k2 : ResKey) (p : Option ℚ)
    (h : k2 ≠ k) : (acc.set k2 p).get k = acc.get k := by
  cases k2 <;> cases k <;> first | rfl | exact absurd rfl h

lemma resFold_get_none (k : ResKey) :
    ∀ (rows : List (List String)) (acc : ResAcc),
      (∀ row ∈ rows, reservationRowKey row ≠ some k) → acc.get k = none →
      (rows.foldl reservationStep acc).get k = none := by
  intro rows
  induction rows with
  | nil => intro acc _ hacc; exact hacc
  | cons row rest ih =>
    intro acc h hacc
    simp only [List.foldl_cons]
    apply ih _ (fun r hr => h r (List.mem_cons_of_mem _ hr))
    have hrow := h row (List.mem_cons_self _ _)
    cases row with
    | nil => exact hacc
    | cons c0 row2 =>
      cases row2 with
      | nil => exact hacc
      | cons c1 rest2 =>
        have hrow2 : classifyReservation (lowerS (clean_text c0)) ≠ some k := hrow
        cases hcl : classifyReservation (lowerS (clean_text c0)) with
        | none =>
          simp only [reservationStep, hcl]
          exact hacc
        | some k2 =>
          have hne : k2 ≠ k := fun he => hrow2 (by rw [hcl, he])
          simp only [reservationStep, hcl]
          rw [resAccSet_get_ne acc k k2 _ hne]
          exact hacc

lemma resFinalize_get (acc : ResAcc) (k : ResKey) :
    (resFinalize acc).get k = (acc.get k).getD 0 := by
  cases k <;> rfl

/-- C8: in the assembled reservation record (present whenever the
reservation card and table exist), every declared category key whose row
is absent from the table carries the value 0 — by construction the record
field is a number, never `None`. -/
theorem C8_reservations_default (rows : List (List String)) (k : ResKey)
    (h : ∀ row ∈ rows, reservationRowKey row ≠ some k) :
    ∃ rec, _extract_reservations (some (some rows)) = [rec] ∧
      ResRec.get rec k = 0 := by
  refine ⟨resFinalize (rows.foldl reservationStep ResAcc.init), rfl, ?_⟩
  rw [resFinalize_get, resFold_get_none k rows ResAcc.init h (resAccInit_get k)]
  rfl

def c8row1 : List String :=
  [r"QIB Shares Offered", r"Not more than 50.00% of the Net Issue"]
def c8rows : List (List String) := [c8row1]

/-- C8 witness: a table carrying only a QIB row still produces a record
whose retail key is present with value 0. -/
theorem C8_witness :
    ∃ rec, _extract_reservations (some (some c8rows)) = [rec] ∧
      ResRec.get rec ResKey.retail = 0 :=
  C8_reservations_default c8rows ResKey.retail (by decide)

/-! ## C3: range texts with two embedded dates -/

def c3text : String := "Fri, Jan 9, 2026 and closes on Tue, Jan 13, 2026"
def c3d1 : String := "Fri, Jan 9, 2026"
def c3d2 : String := "Tue, Jan 13, 2026"

/-- C3 counterexample: on a matched text containing the two embedded
dates Jan 9 and Jan 13, the IPO date parser (`_parse` of
`_extract_date`, which is used unchanged for the close-date labels)
returns the first embedded date, not the last one that the claim
requires for the close-date field. -/
theorem C3_counterexample :
    findallCanonical c3text.data = [c3d1.data, c3d2.data] ∧
    parse_date c3d2 = some ⟨2026, 1, 13⟩ ∧
    ipoParseDateValue c3text = some ⟨2026, 1, 9⟩ ∧
    some (PDate.mk 2026 1 9) ≠ some (PDate.mk 2026 1 13) := by
  refine ⟨by decide, by decide, by decide, by decide⟩

/-- C3 (amended): when a matched label text embeds exactly two canonical
dates, the NCD parser returns the first for open labels and the last for
close labels, while the IPO parser returns the first embedded date for
every label list (open and close alike). -/
theorem C3_amended (v : String) (d1 d2 : Chars) (p1 p2 : PDate)
    (hf : findallCanonical v.data = [d1, d2])
    (h1 : parse_date ⟨d1⟩ = some p1) (h2 : parse_date ⟨d2⟩ = some p2) :
    ipoParseDateValue v = some p1 ∧
    ncdParseDateVal (labelsHaveClose ncdOpenLabels) v = some p1 ∧
    ncdParseDateVal (labelsHaveClose ncdCloseLabels) v = some p2 := by
  have hv : v.data ≠ [] := by
    intro he
    rw [he] at hf
    simp [findallCanonical, findallAux] at hf
  have e1 : firstParsedDate [d1, d2] = some p1 := by
    simp [firstParsedDate, h1]
  refine ⟨?_, ?_, ?_⟩
  · unfold ipoParseDateValue
    rw [if_neg hv, hf, e1]
  · have hco : labelsHaveClose ncdOpenLabels = false := by decide
    rw [hco]
    unfold ncdParseDateVal
    rw [if_neg hv, hf]
    exact h1
  · have hcc : labelsHaveClose ncdCloseLabels = true := by decide
    rw [hcc]
    unfold ncdParseDateVal
    rw [if_neg hv, hf]
    exact h2

/-- C3 witness: the amended behaviour at the concrete two-date text. -/
theorem C3_witness :
    ipoParseDateValue c3text = some ⟨2026, 1, 9⟩ ∧
    ncdParseDateVal (labelsHaveClose ncdOpenLabels) c3text = some ⟨2026, 1, 9⟩ ∧
    ncdParseDateVal (labelsHaveClose ncdCloseLabels) c3text = some ⟨2026, 1, 13⟩ :=
  C3_amended c3text c3d1.data c3d2.data ⟨2026, 1, 9⟩ ⟨2026, 1, 13⟩
    (by decide) (by decide) (by decide)

/-! ## C7: narrative promoter extraction -/

def c7two : String := "Ramesh Kumar and Suresh Gupta are the company promoters."
def c7three : String :=
  "Ramesh Kumar, Suresh Gupta and Mahesh Jain are the company promoters."
def c7n1 : String := "Ramesh Kumar"
def c7n2 : String := "Suresh Gupta"
def c7n3 : String := "Mahesh Jain"
def c7g1 : String := "Ramesh Kumar, Suresh Gupta"

/-- C7 counterexample: the IPO narrative promoter extractor splits the
matched span only on `\s+and\s+`, so a span listing three names with a
comma and a final conjunction yields the comma-joined group
`"Ramesh Kumar, Suresh Gupta"` and `"Mahesh Jain"` — not the three
individual names the claim requires. -/
theorem C7_counterexample :
    ipoPromotersFromText c7three = some [c7g1, c7n3] ∧
    [c7g1, c7n3] ≠ [c7n1, c7n2, c7n3] := by
  refine ⟨by decide, by decide⟩

/-- C7 (amended): on the two-name sentence both extractors return the
two individual names; on the comma-listed three-name sentence the NCD
extractor (which splits on `\s+and\s+|\s*,\s*`) returns the three
individual names while the IPO extractor (splitting only on the
conjunction) returns the comma-joined group and the last name. -/
theorem C7_amended :
    ipoPromotersFromText c7two = some [c7n1, c7n2] ∧
    ncdPromotersFromText c7two = [c7n1, c7n2] ∧
    ncdPromotersFromText c7three = [c7n1, c7n2, c7n3] ∧
    ipoPromotersFromText c7three = some [c7g1, c7n3] := by
  refine ⟨by decide, by decide, by decide, by decide⟩

/-! ## C9: the "IPO Date" combined-range fallback is dead code -/

def c9text : String := "20 to 22 Jan, 2026"
def c9d1 : String := "20"
def c9d2 : String := "22"
def c9mon : String := "Jan"
def c9yr : String := "2026"
def c9open : String := "20 Jan 2026"
def c9close : String := "22 Jan 2026"
def c9text2 : String := "Jan 20, 2026 to Jan 22, 2026"

/-- C9: the day-range pattern does match `"20 to 22 Jan, 2026"`, but the
fallback hands `parse_date` the strings `"20 Jan 2026"` / `"22 Jan 2026"`,
which are not in its only accepted format `"%a, %b %d, %Y"`; so the
extractor returns `None` for both the open and the close field instead of
the claimed 2026-01-20 / 2026-01-22 (the month-name range pattern is dead
for the same reason). -/
theorem C9_date_range_fallback_none :
    searchDayRange c9text.data = some (c9d1.data, c9d2.data, c9mon.data, c9yr.data) ∧
    parse_date c9open = none ∧
    parse_date c9close = none ∧
    ipoDateRangeFallback false c9text = none ∧
    ipoDateRangeFallback true c9text = none ∧
    (searchMonthRange c9text2.data).isSome = true ∧
    ipoDateRangeFallback false c9text2 = none ∧
    ipoDateRangeFallback true c9text2 = none := by
  refine ⟨by decide, by decide, by decide, by decide, by decide, by decide,
    by decide, by decide⟩

/-! ## C10: list-valued fields are lists, empty when absent -/

/-- C10: for every input whose assembly succeeds, each list-valued field
of the assembled IPO and NCD records is a `List` by construction (the
faithful translation of every extractor returning a Python list on every
path, never `None`), and it is the empty list whenever the parts of the
document that feed that extractor are absent. -/
theorem C10_list_fields (ii : IpoInputs) (ni : NcdInputs)
    (ir : IpoLists) (nr : NcdLists)
    (hi : assembleIpoLists ii = Except.ok ir)
    (hn : assembleNcdLists ni = Except.ok nr) :
    (ii.summary = none ∧ ii.aboutFallback = none → ir.about_company = []) ∧
    (ii.summary = none ∧ ii.strengthsFallback = none → ir.strengths = []) ∧
    (ii.weakSec = none → ir.weaknesses = []) ∧
    (ii.oppSec = none → ir.opportunities = []) ∧
    (ii.threatSec = none → ir.threats = []) ∧
    (ii.prodSec = none ∧ ii.summary = none → ir.products = []) ∧
    (ii.summary = none ∧ ii.svcSec = none → ir.services = []) ∧
    (ii.promoCandTexts = [] ∧ ii.promoSec = none ∧ ii.promoTableValue = none →
      ir.promoters = []) ∧
    (ii.lmOlItems = none ∧ ii.lmReviewLinkTexts = [] ∧ ii.lmTableValue = none →
      ir.lead_managers = []) ∧
    (ii.objTable = none → ir.objectives = []) ∧
    (ii.finTable = none → ir.financials = []) ∧
    (ii.peersTable = none → ir.peers = []) ∧
    (ii.contactCard = none → ir.company_contacts = []) ∧
    (ii.resCard = none → ir.reservations = []) ∧
    (ii.rhpSec = none → ir.rhp_insights = []) ∧
    (ii.faqM1 = [] ∧ ii.faqSec = none ∧ ii.faqM3 = [] → ir.faqs = []) ∧
    (ni.exchangeText = none → nr.exchanges = []) ∧
    (ni.promoterText = none ∧ ni.promoCard = none → nr.promoters = []) ∧
    (ni.couponTable = none → nr.coupon_series = []) ∧
    (ni.ratingTable = none → nr.ratings = []) ∧
    (ni.objHeadings = [] → nr.objects_of_issue = []) ∧
    (ni.lmCard = none → nr.lead_managers = []) ∧
    (ni.docLinks = [] → nr.documents = []) ∧
    (ni.faqM1 = [] ∧ ni.faqSec = none ∧ ni.faqM3 = [] → nr.faq = []) ∧
    nr.news = [] := by
  unfold assembleIpoLists at hi
  unfold assembleNcdLists at hn
  cases hf : _extract_financials ii.finTable with
  | error e => simp [hf] at hi
  | ok fins =>
  simp only [hf] at hi
  cases hq : extract_faqs ii.faqM1 ii.faqSec ii.faqM3 with
  | error e => simp [hq] at hi
  | ok fqs =>
  simp only [hq, Except.ok.injEq] at hi
  cases hqn : ncd_extract_faqs ni.faqM1 ni.faqSec ni.faqM3 with
  | error e => simp [hqn] at hn
  | ok nfq =>
  simp only [hqn, Except.ok.injEq] at hn
  subst hi
  subst hn
  refine ⟨?_, ?_, ?_, ?_, ?_, ?_, ?_, ?_, ?_, ?_, ?_, ?_, ?_, ?_, ?_, ?_, ?_,
    ?_, ?_, ?_, ?_, ?_, ?_, ?_, ?_⟩
  · intro h
    rw [h.1, h.2]
    rfl
  · intro h
    rw [h.1, h.2]
    rfl
  · intro h
    rw [h]
    rfl
  · intro h
    rw [h]
    rfl
  · intro h
    rw [h]
    rfl
  · intro h
    rw [h.1, h.2]
    rfl
  · intro h
    rw [h.1, h.2]
    rfl
  · intro h
    rw [h.1, h.2.1, h.2.2]
    rfl
  · intro h
    rw [h.1, h.2.1, h.2.2]
    rfl
  · intro h
    rw [h]
    rfl
  · intro h
    rw [h] at hf
    have h3 : (Except.ok ([] : List FinPeriod) : Except Unit (List FinPeriod)) =
        Except.ok fins := hf
    injection h3 with h4
    exact h4.symm
  · intro h
    rw [h]
    rfl
  · intro h
    rw [h]
    rfl
  · intro h
    rw [h]
    rfl
  · intro h
    rw [h]
    rfl
  · intro h
    rw [h.1, h.2.1, h.2.2] at hq
    have h3 : (Except.ok ([] : List Faq) : Except Unit (List Faq)) =
        Except.ok fqs := hq
    injection h3 with h4
    exact h4.symm
  · intro h
    rw [h]
    rfl
  · intro h
    rw [h.1, h.2]
    rfl
  · intro h
    rw [h]
    rfl
  · intro h
    rw [h]
    rfl
  · intro h
    rw [h]
    rfl
  · intro h
    rw [h]
    rfl
  · intro h
    rw [h]
    rfl
  · intro h
    rw [h.1, h.2.1, h.2.2] at hqn
    have h3 : (Except.ok ([] : List NcdQA) : Except Unit (List NcdQA)) =
        Except.ok nfq := hqn
    injection h3 with h4
    exact h4.symm
  · rfl

def ipoEmptyInputs : IpoInputs := {}
def ncdEmptyInputs : NcdInputs := {}
def ipoEmptyLists : IpoLists :=
  ⟨[], [], [], [], [], [], [], [], [], [], [], [], [], [], [], []⟩
def ncdEmptyLists : NcdLists := ⟨[], [], [], [], [], [], [], [], []⟩

/-- C10 witness: the all-absent document assembles successfully and every
list field is the empty list. -/
theorem C10_witness :
    assembleIpoLists ipoEmptyInputs = Except.ok ipoEmptyLists ∧
    assembleNcdLists ncdEmptyInputs = Except.ok ncdEmptyLists ∧
    ipoEmptyLists.about_company = [] ∧ ipoEmptyLists.faqs = [] ∧
    ncdEmptyLists.faq = [] ∧ ncdEmptyLists.news = [] := by
  have h := C10_list_fields ipoEmptyInputs ncdEmptyInputs ipoEmptyLists
    ncdEmptyLists (by rfl) (by rfl)
  obtain ⟨h1, h2, h3, h4, h5, h6, h7, h8, h9, h10, h11, h12, h13, h14, h15,
    h16, h17, h18, h19, h20, h21, h22, h23, h24, h25⟩ := h
  exact ⟨by rfl, by rfl, h1 ⟨rfl, rfl⟩, h16 ⟨rfl, rfl, rfl⟩,
    h24 ⟨rfl, rfl, rfl⟩, h25⟩

end Scrap
